import Mathlib

set_option maxHeartbeats 1000000

/-!
Shallow embedding of the synthetic HR dataset generator
(`src/dataset`: `models/`, `utils.py`, `database.py`, `workflow.py`)
and proofs about it.

Conventions of the embedding:
* Python `datetime.date` becomes `PDate` with its lexicographic order.
* Python UUIDs become `Nat`; `uuid.uuid1()` draws from an explicit
  identifier stream (`IdStream`).
* The seeded global `random` generator and the Faker generator become
  explicit state values (`Rng`, `FakerState`): each sampling call is a pure
  function of the state and returns the advanced state.
* Python floats holding ratio weights and monetary amounts become `ℚ`.
* Raising an exception becomes `Except.error` / a distinguished result
  constructor; an unbounded `while True` loop is run on explicit fuel, with
  a distinguished result for fuel exhaustion (the loop not having
  terminated within that many iterations).
-/

namespace HRGen

/-- Calendar date (Python `datetime.date`): year, month, day. -/
structure PDate where
  year : Nat
  month : Nat
  day : Nat
deriving DecidableEq, Repr

/-- Python `datetime.date` comparison `<`: lexicographic on (year, month, day). -/
def PDate.lt (a b : PDate) : Bool :=
  decide (a.year < b.year) ||
    (a.year == b.year &&
      (decide (a.month < b.month) || (a.month == b.month && decide (a.day < b.day))))

/-- `models/employee.py` `Gender` enum. -/
inductive Gender
  | MALE | FEMALE | NON_BINARY | PREFER_NOT_TO_SAY
deriving DecidableEq, Repr

/-- `models/employee.py` `Ethnicity` enum. -/
inductive Ethnicity
  | ASIAN | BLACK | HISPANIC | WHITE | OTHER
deriving DecidableEq, Repr

/-- `models/employee.py` `Generation` enum. -/
inductive Generation
  | BABY_BOOMER | GEN_X | MILLENNIAL | GEN_Z
deriving DecidableEq, Repr

/-- `.value` strings of the `Generation` enum members. -/
def Generation.value : Generation → String
  | .BABY_BOOMER => "Baby Boomer"
  | .GEN_X => "Generation X"
  | .MILLENNIAL => "Millennial"
  | .GEN_Z => "Generation Z"

/-- `models/employee.py` `EducationLevel` enum. -/
inductive EducationLevel
  | HIGH_SCHOOL | ASSOCIATE | BACHELORS | MASTERS | DOCTORATE
deriving DecidableEq, Repr

/-- `models/employee.py` `EducationField` enum. -/
inductive EducationField
  | AGRICULTURE | ARTS | BIOLOGICAL_SCIENCES | BUSINESS | COMMUNICATION_MEDIA
  | COMPUTER_SCIENCE | CIVIL_ENGINEERING | ELECTRICAL_ENGINEERING
  | MECHANICAL_ENGINEERING | CHEMICAL_ENGINEERING | BIOMEDICAL_ENGINEERING
  | MATERIALS_ENGINEERING | ECONOMICS | HEALTH_SCIENCES | LAW | LITERATURE
  | MATHEMATICS_STATISTICS | MEDICINE | MILITARY_SCIENCE | NURSING | PEDAGOGY
  | PHARMACY | PHYSICAL_SCIENCES | POLITICAL_SCIENCE | PSYCHOLOGY
  | RELIGIOUS_STUDIES | SOCIAL_SCIENCES
deriving DecidableEq, Repr

/-- `models/organizational.py` `JobLevel` enum. -/
inductive JobLevel
  | INTERN | JUNIOR | MID | SENIOR | LEAD | MANAGER | DIRECTOR | PRESIDENT
deriving DecidableEq, Repr

/-- `models/organizational.py` `JobFamily` enum. -/
inductive JobFamily
  | ENGINEERING | PRODUCT | DESIGN | DATA | MARKETING | SALES
  | CUSTOMER_SUCCESS | FINANCE | HUMAN_RESOURCES | LEGAL | OPERATIONS
  | SECURITY | QUALITY_ASSURANCE | BUSINESS_DEVELOPMENT | EXECUTIVE
deriving DecidableEq, Repr

/-- `models/organizational.py` `ContractType` enum. -/
inductive ContractType
  | FULL_TIME | PART_TIME | CONTRACT | TEMPORARY | INTERN
deriving DecidableEq, Repr

/-- `models/organizational.py` `WorkplaceType` enum. -/
inductive WorkplaceType
  | REMOTE | ONSITE | HYBRID
deriving DecidableEq, Repr

/-- `models/compensation.py` `RateType` enum. -/
inductive RateType
  | HOURLY | SALARY
deriving DecidableEq, Repr

/-- `models/organizational.py` `Job` (a `BaseFields` pydantic model).
UUIDs are modelled as `Nat`. -/
structure Job where
  id : Nat
  name : String
  description : Option String
  job_level : JobLevel
  job_family : JobFamily
  contract_type : ContractType
  workplace_type : WorkplaceType
deriving DecidableEq, Repr

/-- `models/employee.py` `Employee` (pydantic model): stored fields only.
The derived `first_name` / `last_name` / `generation` are `computed_field`
properties and are therefore separate functions, not fields: pydantic
evaluates them on attribute access and serialization, never during
`Employee(...)` construction. -/
structure Employee where
  id : Nat
  job_id : Nat
  department_id : Option Nat
  business_unit_id : Option Nat
  birth_date : PDate
  gender : Gender
  ethnicity : Ethnicity
  education_level : Option EducationLevel
  education_field : Option EducationField
deriving DecidableEq, Repr

/-- Pydantic construction `Employee(...)`: field-level type validation only.
`Employee` declares no `field_validator`, and well-typed arguments always
pass pydantic's type validation, so construction succeeds; the computed
fields are not evaluated here. -/
def Employee.construct (id job_id : Nat) (department_id business_unit_id : Option Nat)
    (birth_date : PDate) (gender : Gender) (ethnicity : Ethnicity)
    (education_level : Option EducationLevel) (education_field : Option EducationField) :
    Except String Employee :=
  .ok ⟨id, job_id, department_id, business_unit_id, birth_date, gender, ethnicity,
    education_level, education_field⟩

/-- `Employee.generation` boundary logic (`models/employee.py`, lines 180-189),
as a function of the birth date. -/
def generationOfDate (d : PDate) : Except String Generation :=
  if PDate.lt d ⟨1965, 1, 1⟩ then .ok .BABY_BOOMER
  else if PDate.lt d ⟨1981, 1, 1⟩ then .ok .GEN_X
  else if PDate.lt d ⟨1997, 1, 1⟩ then .ok .MILLENNIAL
  else if PDate.lt d ⟨2016, 1, 1⟩ then .ok .GEN_Z
  else .error "Unknown generation"

/-- The `generation` computed field of `Employee` (`models/employee.py`):
derived from `birth_date`, raising `ValueError("Unknown generation")` for a
date at or after 2016-01-01. -/
def Employee.generation (e : Employee) : Except String Generation :=
  generationOfDate e.birth_date

/-- State of a seeded pseudo-random generator: an underlying deterministic
stream of raw draws (fixed by the seed) and the current position in it. -/
structure Rng where
  stream : Nat → Nat
  pos : Nat

/-- `random.randint(lo, hi)`: consumes one raw draw, returns a value in
`[lo, hi]` (both ends inclusive), advances the state. -/
def randint (lo hi : Nat) (r : Rng) : Nat × Rng :=
  (lo + r.stream r.pos % (hi + 1 - lo), ⟨r.stream, r.pos + 1⟩)

/-- Resolution of `random.random()`: it returns `k / 2^53` with
`k < 2^53`. -/
def randUnitDen : Nat := 2 ^ 53

/-- `random.uniform(a, b)` = `a + (b - a) * random.random()`: consumes one
raw draw, returns a rational in `[a, b)` (for `a < b`), advances the state. -/
def uniform (a b : ℚ) (r : Rng) : ℚ × Rng :=
  (a + (b - a) * ((r.stream r.pos % randUnitDen : ℕ) : ℚ) / (randUnitDen : ℚ),
    ⟨r.stream, r.pos + 1⟩)

/-- Argument actually passed to `get_birth_date`: Python is dynamically
typed, so besides the four `Generation` members any other value can arrive;
`invalid` stands for every non-member argument. -/
inductive GenArg
  | gen (g : Generation)
  | invalid
deriving DecidableEq

/-- `utils.get_birth_date` (`src/dataset/utils.py`, lines 14-56): year range
per generation, month in 1-12, day in 1-28, `ValueError` for any other
argument. -/
def get_birth_date (generation : GenArg) (r : Rng) : Except String (PDate × Rng) :=
  match generation with
  | .invalid => .error "Invalid generation"
  | .gen g =>
    let (start_year, end_year) :=
      match g with
      | .BABY_BOOMER => (1946, 1964)
      | .GEN_X => (1965, 1980)
      | .MILLENNIAL => (1981, 1996)
      | .GEN_Z => (1997, 2012)
    let (year, r1) := randint start_year end_year r
    let (month, r2) := randint 1 12 r1
    let (day, r3) := randint 1 28 r2
    .ok (⟨year, month, day⟩, r3)

/-- The selection loop of `utils.weighted_random_choice`
(`src/dataset/utils.py`, lines 86-89): first key whose weight exceeds the
remaining draw, subtracting as it goes. -/
def wrcLoop {K : Type} : List (K × ℚ) → ℚ → Option K
  | [], _ => none
  | (item, weight) :: rest, r => if r < weight then some item else wrcLoop rest (r - weight)

/-- `utils.weighted_random_choice` applied to an already-drawn value `r`
(the loop of lines 86-89 plus the line-90 fallback
`list(choices.keys())[-1]`). A Python dict iterates in insertion order, so
it is modelled as an association list. -/
def wrcCore {K : Type} (choices : List (K × ℚ)) (r : ℚ) : Option K :=
  match wrcLoop choices r with
  | some k => some k
  | none => (choices.map Prod.fst).getLast?

/-- `utils.weighted_random_choice` (`src/dataset/utils.py`, lines 59-90):
sums the weights, draws `r = random.uniform(0, total)`, then selects. -/
def weighted_random_choice {K : Type} (choices : List (K × ℚ)) (r : Rng) :
    Option K × Rng :=
  let total := (choices.map Prod.snd).sum
  let (u, r1) := uniform 0 total r
  (wrcCore choices u, r1)

/-- Helper of the refinement reference `specFirstExceeding`: walks the
mapping carrying the running sum `acc` of the weights already passed. -/
def cumFirstExceeding {K : Type} (acc : ℚ) : List (K × ℚ) → ℚ → Option K
  | [], _ => none
  | (k, w) :: rest, r =>
    if r < acc + w then some k else cumFirstExceeding (acc + w) rest r

/-- Refinement reference, from the spec's words: "returns the first category
whose cumulative weight exceeds the draw" — the first key in iteration order
whose cumulative (prefix) weight sum strictly exceeds `r`. -/
def specFirstExceeding {K : Type} (choices : List (K × ℚ)) (r : ℚ) : Option K :=
  cumFirstExceeding 0 choices r

/-- The chunking recursion of `utils.batch_iterator`: at each step yield
`dataset[i : i + batch_size]` and advance by `batch_size`. The step size is
written `b + 1` so that it is positive by construction. -/
def batchChunks {α : Type} (b : Nat) : List α → List (List α)
  | [] => []
  | x :: xs =>
    (x :: xs).take (b + 1) :: batchChunks b ((x :: xs).drop (b + 1))
termination_by l => l.length
decreasing_by
  simp only [List.length_drop, List.length_cons]
  omega

/-- `utils.batch_iterator` (`src/dataset/utils.py`, lines 93-101): Python's
`range(0, len(dataset), batch_size)` raises `ValueError` for step 0, else
the generator yields the successive slices. -/
def batch_iterator {α : Type} (dataset : List α) (batch_size : Nat) :
    Except String (List (List α)) :=
  match batch_size with
  | 0 => .error "range() arg 3 must not be zero"
  | b + 1 => .ok (batchChunks b dataset)

/-! ## Faker-backed computed name fields -/

/-- Name pools of the Faker library, abstracted: each pool maps a raw draw
to a name of that category. The library's concrete word lists are external
data, so the pools are parameters of the embedding. -/
structure NamePools where
  male_first : Nat → String
  female_first : Nat → String
  any_first : Nat → String
  male_last : Nat → String
  female_last : Nat → String
  any_last : Nat → String

/-- State of the module-level `faker = Faker()` generator: its own raw draw
stream (independent of the `random.seed(1993)`-seeded global generator,
which Faker does not share) and current position. -/
structure FakerState where
  stream : Nat → Nat
  pos : Nat

/-- One Faker sampling step: consume a raw draw, advance the state. -/
def FakerState.draw (f : FakerState) : Nat × FakerState :=
  (f.stream f.pos, ⟨f.stream, f.pos + 1⟩)

/-- The `first_name` computed field (`models/employee.py`, lines 130-146):
each evaluation calls `faker.first_name_male()` / `faker.first_name_female()`
/ `faker.first_name()` according to gender, consuming one Faker draw. -/
def Employee.first_name (p : NamePools) (e : Employee) (f : FakerState) :
    String × FakerState :=
  let (n, f1) := f.draw
  match e.gender with
  | .MALE => (p.male_first n, f1)
  | .FEMALE => (p.female_first n, f1)
  | _ => (p.any_first n, f1)

/-- The `last_name` computed field (`models/employee.py`, lines 148-164):
analogous to `first_name` with the last-name pools. -/
def Employee.last_name (p : NamePools) (e : Employee) (f : FakerState) :
    String × FakerState :=
  let (n, f1) := f.draw
  match e.gender with
  | .MALE => (p.male_last n, f1)
  | .FEMALE => (p.female_last n, f1)
  | _ => (p.any_last n, f1)

/-! ## Storage layer (`database.py`) -/

/-- Row of the `jobs` table. -/
structure JobRow where
  id : Nat
  name : String
  description : Option String
  job_level : JobLevel
  job_family : JobFamily
  contract_type : ContractType
  workplace_type : WorkplaceType
deriving DecidableEq, Repr

/-- Row of the `business_units` table. -/
structure BusinessUnitRow where
  id : Nat
  name : String
  description : Option String
  director_job_id : Nat
deriving DecidableEq, Repr

/-- Row of the `departments` table. -/
structure DepartmentRow where
  id : Nat
  name : String
  description : Option String
  manager_job_id : Nat
  business_unit_id : Nat
deriving DecidableEq, Repr

/-- Row of the `employees` table. Enum-valued columns are stored as the
enum members themselves; DuckDB stores their `.value` strings, and `.value`
is injective on each enum. -/
structure EmployeeRow where
  id : Nat
  job_id : Nat
  department_id : Option Nat
  business_unit_id : Option Nat
  first_name : String
  last_name : String
  birth_date : PDate
  gender : Gender
  ethnicity : Ethnicity
  education_level : Option EducationLevel
  education_field : Option EducationField
  generation : Generation
deriving DecidableEq, Repr

/-- Row of the `compensations` table. -/
structure CompensationRow where
  id : Nat
  employee_id : Nat
  annual_base_salary : ℚ
  annual_bonus_amount : Option ℚ
  annual_commission_amount : Option ℚ
  rate_type : RateType
  total_compensation : ℚ
deriving DecidableEq, Repr

/-- One successful insert, as recorded in the run's insert trace. -/
inductive Ev
  | job (id : Nat)
  | business_unit (id director_job_id : Nat)
  | department (id business_unit_id manager_job_id : Nat)
  | employee (id job_id : Nat) (department_id business_unit_id : Option Nat)
  | compensation (id employee_id : Nat)
deriving DecidableEq, Repr

/-- Contents of the DuckDB file: the five tables of `create_tables`, plus
the ordered trace of successful inserts performed on it. -/
structure DB where
  file_path : String
  business_units : List BusinessUnitRow
  departments : List DepartmentRow
  jobs : List JobRow
  employees : List EmployeeRow
  compensations : List CompensationRow
  trace : List Ev

def DB.jobIds (db : DB) : List Nat := db.jobs.map JobRow.id
def DB.businessUnitIds (db : DB) : List Nat := db.business_units.map BusinessUnitRow.id
def DB.departmentIds (db : DB) : List Nat := db.departments.map DepartmentRow.id
def DB.employeeIds (db : DB) : List Nat := db.employees.map EmployeeRow.id
def DB.compensationIds (db : DB) : List Nat := db.compensations.map CompensationRow.id

/-- The `CHECK` constraint of the `employees` table: exactly one of
`department_id` / `business_unit_id` is non-NULL. -/
def exclusivityCheck (department_id business_unit_id : Option Nat) : Bool :=
  (department_id.isSome && business_unit_id.isNone) ||
    (department_id.isNone && business_unit_id.isSome)

/-- Whether inserting `row` into `employees` violates any constraint DuckDB
raises `ConstraintException` for: primary key, the three foreign keys
(NULL foreign keys pass), or the exclusivity check. -/
def employeeInsertViolation (db : DB) (row : EmployeeRow) : Bool :=
  decide (row.id ∈ db.employeeIds) ||
    !decide (row.job_id ∈ db.jobIds) ||
    (match row.department_id with
      | some d => !decide (d ∈ db.departmentIds)
      | none => false) ||
    (match row.business_unit_id with
      | some b => !decide (b ∈ db.businessUnitIds)
      | none => false) ||
    !exclusivityCheck row.department_id row.business_unit_id

/-- `jobs` insert constraint: primary key only (the table declares no
foreign key). -/
def jobInsertViolation (db : DB) (row : JobRow) : Bool :=
  decide (row.id ∈ db.jobIds)

/-- `business_units` insert constraint: primary key only (`director_job_id`
is NOT NULL but carries no foreign key in the schema). -/
def businessUnitInsertViolation (db : DB) (row : BusinessUnitRow) : Bool :=
  decide (row.id ∈ db.businessUnitIds)

/-- `departments` insert constraints: primary key and the foreign key on
`business_unit_id` (`manager_job_id` carries no foreign key). -/
def departmentInsertViolation (db : DB) (row : DepartmentRow) : Bool :=
  decide (row.id ∈ db.departmentIds) || !decide (row.business_unit_id ∈ db.businessUnitIds)

/-- `compensations` insert constraints: primary key and the foreign key on
`employee_id`. -/
def compensationInsertViolation (db : DB) (row : CompensationRow) : Bool :=
  decide (row.id ∈ db.compensationIds) || !decide (row.employee_id ∈ db.employeeIds)

def DB.insertJobRow (db : DB) (row : JobRow) : DB :=
  { db with jobs := db.jobs ++ [row], trace := db.trace ++ [.job row.id] }

def DB.insertBusinessUnitRow (db : DB) (row : BusinessUnitRow) : DB :=
  { db with
    business_units := db.business_units ++ [row]
    trace := db.trace ++ [.business_unit row.id row.director_job_id] }

def DB.insertDepartmentRow (db : DB) (row : DepartmentRow) : DB :=
  { db with
    departments := db.departments ++ [row]
    trace := db.trace ++ [.department row.id row.business_unit_id row.manager_job_id] }

def DB.insertEmployeeRow (db : DB) (row : EmployeeRow) : DB :=
  { db with
    employees := db.employees ++ [row]
    trace := db.trace ++ [.employee row.id row.job_id row.department_id row.business_unit_id] }

def DB.insertCompensationRow (db : DB) (row : CompensationRow) : DB :=
  { db with
    compensations := db.compensations ++ [row]
    trace := db.trace ++ [.compensation row.id row.employee_id] }

/-- State of the global `uuid.uuid1()` source: the deterministic stream of
identifiers it will hand out next, with the current position. -/
structure IdStream where
  stream : Nat → Nat
  pos : Nat

/-- `uuid.uuid1()`: take the next identifier, advance the stream. -/
def IdStream.next (s : IdStream) : Nat × IdStream :=
  (s.stream s.pos, ⟨s.stream, s.pos + 1⟩)

/-- `models/compensation.py` `Compensation` (stored fields). -/
structure Compensation where
  id : Nat
  annual_base_salary : ℚ
  annual_bonus_amount : Option ℚ
  annual_commission_amount : Option ℚ
  rate_type : RateType
deriving DecidableEq, Repr

/-- The `total_compensation` property: base + bonus + commission, `None`
treated as 0 (Python `x or 0`; `0.0 or 0` is `0`, the same value). -/
def Compensation.total_compensation (c : Compensation) : ℚ :=
  c.annual_base_salary + c.annual_bonus_amount.getD 0 + c.annual_commission_amount.getD 0

/-- `employee.model_dump()` and, identically, the argument tuple of the
`employees` INSERT (`database.py`, lines 148-161): the stored fields plus
the three computed fields. Evaluating it consumes two Faker draws
(`first_name`, then `last_name`) and raises if `generation` does. -/
def Employee.dump (p : NamePools) (e : Employee) (f : FakerState) :
    Except String (EmployeeRow × FakerState) :=
  let (fn, f1) := e.first_name p f
  let (ln, f2) := e.last_name p f1
  match e.generation with
  | .error msg => .error msg
  | .ok g =>
    .ok (⟨e.id, e.job_id, e.department_id, e.business_unit_id, fn, ln,
      e.birth_date, e.gender, e.ethnicity, e.education_level, e.education_field, g⟩, f2)

/-- Outcome of a storage insert whose retry loop is run on fuel:
`ok` for a completed insert, `raise` for an uncaught Python exception, and
`hang` when the `while True` loop has not terminated within the given
number of iterations. -/
inductive InsertOutcome (α : Type) where
  | ok (val : α)
  | raise (msg : String)
  | hang
deriving DecidableEq, Repr

/-- `Database.add_employee` (`database.py`, lines 122-170): evaluate the
argument tuple, attempt the insert; on any `ConstraintException` set
`employee.id = uuid.uuid1()` and retry the loop; other exceptions (the
`ValueError` from `generation`) propagate. -/
def Database.add_employee (p : NamePools) :
    Nat → DB → Employee → IdStream → FakerState →
    InsertOutcome (DB × Employee × IdStream × FakerState)
  | 0, _, _, _, _ => .hang
  | fuel + 1, db, employee, ids, f =>
    match Employee.dump p employee f with
    | .error msg => .raise msg
    | .ok (row, f1) =>
      if employeeInsertViolation db row then
        let (newId, ids1) := ids.next
        Database.add_employee p fuel db { employee with id := newId } ids1 f1
      else
        .ok (db.insertEmployeeRow row, employee, ids, f1)

/-- `Database.add_compensation` (`database.py`, lines 252-288): same loop
shape as `add_employee`, regenerating `compensation.id` on any
`ConstraintException`. -/
def Database.add_compensation :
    Nat → DB → Compensation → Nat → IdStream →
    InsertOutcome (DB × Compensation × IdStream)
  | 0, _, _, _, _ => .hang
  | fuel + 1, db, compensation, employee_id, ids =>
    let row : CompensationRow :=
      ⟨compensation.id, employee_id, compensation.annual_base_salary,
        compensation.annual_bonus_amount, compensation.annual_commission_amount,
        compensation.rate_type, compensation.total_compensation⟩
    if compensationInsertViolation db row then
      let (newId, ids1) := ids.next
      Database.add_compensation fuel db { compensation with id := newId } employee_id ids1
    else
      .ok (db.insertCompensationRow row, compensation, ids)

/-- `Database.add_job` (`database.py`, lines 222-250): a single insert
attempt, no exception handling — a constraint violation propagates. -/
def Database.add_job (db : DB) (job : Job) : Except String DB :=
  let row : JobRow := ⟨job.id, job.name, job.description, job.job_level,
    job.job_family, job.contract_type, job.workplace_type⟩
  if jobInsertViolation db row then .error "Constraint Error: duplicate key"
  else .ok (db.insertJobRow row)

/-- `Database.add_business_unit` (`database.py`, lines 172-194): single
attempt, no exception handling. -/
def Database.add_business_unit (db : DB) (business_unit_id : Nat) (name : String)
    (description : Option String) (director_job_id : Nat) : Except String DB :=
  let row : BusinessUnitRow := ⟨business_unit_id, name, description, director_job_id⟩
  if businessUnitInsertViolation db row then .error "Constraint Error: duplicate key"
  else .ok (db.insertBusinessUnitRow row)

/-- `Database.add_department` (`database.py`, lines 196-220): single
attempt, no exception handling. -/
def Database.add_department (db : DB) (department_id : Nat) (name : String)
    (description : Option String) (manager_job_id business_unit_id : Nat) :
    Except String DB :=
  let row : DepartmentRow := ⟨department_id, name, description, manager_job_id, business_unit_id⟩
  if departmentInsertViolation db row then .error "Constraint Error"
  else .ok (db.insertDepartmentRow row)

/-! ## Company specification models (`models/company.py`) -/

/-- `models/company.py` `Industry` enum. -/
inductive Industry
  | COMMUNICATION_SERVICES | CONSULTING | CONSUMER_STAPLES | EDUCATION
  | ENERGY | FINANCIALS | HEALTHCARE | INDUSTRIALS | REAL_ESTATE | RETAIL
  | TECHNOLOGY | UTILITIES
deriving DecidableEq, Repr

/-- `Department.JobsSpec`: a job and its planned headcount (pydantic
enforces `headcount ≥ 1`). -/
structure JobsSpec where
  job : Job
  headcount : Nat
deriving DecidableEq, Repr

/-- `models/company.py` `Department` specification. -/
structure Department where
  id : Nat
  name : String
  description : Option String
  manager : Job
  jobs : List JobsSpec
deriving DecidableEq, Repr

/-- `models/company.py` `BusinessUnit` specification. -/
structure BusinessUnit where
  id : Nat
  name : String
  description : Option String
  director : Job
  departments : List Department
deriving DecidableEq, Repr

/-- `models/company.py` `Company` specification. -/
structure Company where
  id : Nat
  name : String
  description : Option String
  industry : Industry
  business_units : List BusinessUnit
deriving DecidableEq, Repr

/-- `Ratios.GenderRatios` (fields in declaration order). -/
structure GenderRatios where
  MALE : ℚ
  FEMALE : ℚ
  NON_BINARY : ℚ
  PREFER_NOT_TO_SAY : ℚ
deriving DecidableEq, Repr

/-- `Ratios.EthnicityRatios` (fields in declaration order). -/
structure EthnicityRatios where
  WHITE : ℚ
  BLACK : ℚ
  ASIAN : ℚ
  HISPANIC : ℚ
  OTHER : ℚ
deriving DecidableEq, Repr

/-- `Ratios.GenerationRatios` (fields in declaration order). -/
structure GenerationRatios where
  BABY_BOOMER : ℚ
  GEN_X : ℚ
  MILLENNIAL : ℚ
  GEN_Z : ℚ
deriving DecidableEq, Repr

/-- `models/company.py` `Ratios`. -/
structure Ratios where
  gender : GenderRatios
  ethnicity : EthnicityRatios
  generation : GenerationRatios
deriving DecidableEq, Repr

/-- `ratios.gender.model_dump()`: a dict in field-declaration order. Python
keys it by the field-name string and the workflow maps each key back with
`Gender[key]`; that round trip is the identity on these four keys, so the
dump is modelled keyed by the enum member directly. -/
def GenderRatios.dump (g : GenderRatios) : List (Gender × ℚ) :=
  [(.MALE, g.MALE), (.FEMALE, g.FEMALE), (.NON_BINARY, g.NON_BINARY),
    (.PREFER_NOT_TO_SAY, g.PREFER_NOT_TO_SAY)]

/-- `ratios.ethnicity.model_dump()`, keyed by the enum member (see
`GenderRatios.dump`). -/
def EthnicityRatios.dump (e : EthnicityRatios) : List (Ethnicity × ℚ) :=
  [(.WHITE, e.WHITE), (.BLACK, e.BLACK), (.ASIAN, e.ASIAN),
    (.HISPANIC, e.HISPANIC), (.OTHER, e.OTHER)]

/-- `ratios.generation.model_dump()`, keyed by the enum member (see
`GenderRatios.dump`). -/
def GenerationRatios.dump (g : GenerationRatios) : List (Generation × ℚ) :=
  [(.BABY_BOOMER, g.BABY_BOOMER), (.GEN_X, g.GEN_X),
    (.MILLENNIAL, g.MILLENNIAL), (.GEN_Z, g.GEN_Z)]

/-! ## Workflow (`workflow.py`) -/

/-- The `EducationFieldsResponse` schema of the education task. -/
structure EducationFieldsResponse where
  education_level : EducationLevel
  education_field : EducationField
deriving DecidableEq, Repr

/-- Environment of one workflow run: the structured-generation capability
(each model call is an oracle that may fail), the Faker name pools, and the
iteration budget used to run the unbounded insert-retry loops. -/
structure WorkflowEnv where
  pools : NamePools
  spec_result : String → Except String Company
  ratios_result : Company → Except String Ratios
  education_result : EmployeeRow → Job → Except String EducationFieldsResponse
  compensation_result : EmployeeRow → Job → Except String Compensation
  fuel : Nat

/-- Mutable state threaded through a run: the database file, the seeded
global `random` generator, the Faker generator, and the `uuid.uuid1()`
source. -/
structure WState where
  db : DB
  rng : Rng
  faker : FakerState
  ids : IdStream

/-- Result of a workflow step: completion, an uncaught exception, or
divergence of an insert-retry loop. -/
inductive RunResult (α : Type) where
  | ok (val : α)
  | raise (msg : String)
  | hang
deriving DecidableEq, Repr

/-- `create_database` (`workflow.py`, lines 211-227): constructs
`Database()` (default path), runs the idempotent `create_tables`, and falls
off the end of the function — so it returns Python `None`. `create_tables`
only issues `CREATE TABLE IF NOT EXISTS`, leaving existing contents alone,
which on the model's `DB` value is the identity. -/
def create_database (s : WState) : RunResult (Option String × WState) :=
  .ok (none, s)

/-- The default storage path of `Database.__init__` (`database.py`, line 24). -/
def defaultDbPath : String := "../../data/hr_database.duckdb"

/-- How a Python f-string renders `db_name`: `None` prints as `"None"`. -/
def pyFormat : Option String → String
  | none => "None"
  | some str => str

/-- `add_business_unit_to_db` (`workflow.py`, lines 243-248): insert the
director's job, then the business unit. -/
def add_business_unit_to_db (bu : BusinessUnit) (s : WState) : RunResult WState :=
  match Database.add_job s.db bu.director with
  | .error msg => .raise msg
  | .ok db1 =>
    match Database.add_business_unit db1 bu.id bu.name bu.description bu.director.id with
    | .error msg => .raise msg
    | .ok db2 => .ok { s with db := db2 }

/-- The `for job_spec in department.jobs: db.add_job(job_spec.job)` loop of
`add_department_to_db`. -/
def addSpecJobs : DB → List JobsSpec → Except String DB
  | db, [] => .ok db
  | db, js :: rest =>
    match Database.add_job db js.job with
    | .error msg => .error msg
    | .ok db1 => addSpecJobs db1 rest

/-- `add_department_to_db` (`workflow.py`, lines 230-240): insert the
manager's job, every job of the department's jobs spec, then the department
row itself. -/
def add_department_to_db (department : Department) (business_unit_id : Nat)
    (s : WState) : RunResult WState :=
  match Database.add_job s.db department.manager with
  | .error msg => .raise msg
  | .ok db1 =>
    match addSpecJobs db1 department.jobs with
    | .error msg => .raise msg
    | .ok db2 =>
      match Database.add_department db2 department.id department.name
          department.description department.manager.id business_unit_id with
      | .error msg => .raise msg
      | .ok db3 => .ok { s with db := db3 }

/-- `add_employee_to_db` (`workflow.py`, lines 251-256): insert the
employee, then insert the compensation under `str(employee.id)` — the id
read from the (possibly collision-mutated) employee object after
`add_employee` returned. -/
def add_employee_to_db (env : WorkflowEnv) (employee : Employee)
    (compensation : Compensation) (s : WState) : RunResult WState :=
  match Database.add_employee env.pools env.fuel s.db employee s.ids s.faker with
  | .raise msg => .raise msg
  | .hang => .hang
  | .ok (db1, employee1, ids1, f1) =>
    match Database.add_compensation env.fuel db1 compensation employee1.id ids1 with
    | .raise msg => .raise msg
    | .hang => .hang
    | .ok (db2, _, ids2) =>
      .ok { db := db2, rng := s.rng, faker := f1, ids := ids2 }

/-- `generate_employee` (`workflow.py`, lines 259-289): construct the
Employee (its id drawn from `uuid.uuid1()` by the `BaseFields` default
factory), serialize it for the education call, fill the education fields,
serialize again for the compensation call, then persist employee and
compensation. -/
def generate_employee (env : WorkflowEnv) (job : Job) (birth_date : PDate)
    (gender : Gender) (ethnicity : Ethnicity)
    (department_id business_unit_id : Option Nat) (s : WState) : RunResult WState :=
  let (eid, ids1) := s.ids.next
  match Employee.construct eid job.id department_id business_unit_id birth_date
      gender ethnicity none none with
  | .error msg => .raise msg
  | .ok employee =>
    match Employee.dump env.pools employee s.faker with
    | .error msg => .raise msg
    | .ok (edump, f1) =>
      match env.education_result edump job with
      | .error msg => .raise msg
      | .ok education_fields =>
        let employee1 := { employee with
          education_level := some education_fields.education_level
          education_field := some education_fields.education_field }
        match Employee.dump env.pools employee1 f1 with
        | .error msg => .raise msg
        | .ok (edump1, f2) =>
          match env.compensation_result edump1 job with
          | .error msg => .raise msg
          | .ok compensation =>
            add_employee_to_db env employee1 compensation
              { s with ids := ids1, faker := f2 }

/-- Evaluation of the three demographic keyword arguments shared by every
`generate_employee` call site (`workflow.py`, lines 299-307, 313-321,
369-377): `birth_date = get_birth_date(Generation[wrc(...)])`, then
`gender = Gender[wrc(...)]`, then `ethnicity = Ethnicity[wrc(...)]`, in
that evaluation order. `wrc` returning no key (empty dict) would be a
Python `IndexError`. -/
def sampleDemographics (ratios : Ratios) (r : Rng) :
    Except String ((PDate × Gender × Ethnicity) × Rng) :=
  match weighted_random_choice ratios.generation.dump r with
  | (none, _) => .error "IndexError"
  | (some g, r1) =>
    match get_birth_date (.gen g) r1 with
    | .error msg => .error msg
    | .ok (birth_date, r2) =>
      match weighted_random_choice ratios.gender.dump r2 with
      | (none, _) => .error "IndexError"
      | (some gender, r3) =>
        match weighted_random_choice ratios.ethnicity.dump r3 with
        | (none, _) => .error "IndexError"
        | (some ethnicity, r4) => .ok ((birth_date, gender, ethnicity), r4)

/-- One batch of rank-and-file employee generation inside
`generate_department` (`workflow.py`, lines 311-325). The five expansions
of a batch are submitted with sequentially evaluated demographic arguments
and awaited before the next batch; the model runs the expansions in
submission order (their relative interleaving is unobservable in the final
tables and trace properties proved here go through any serialization). -/
def generateBatch (env : WorkflowEnv) (ratios : Ratios) (job : Job)
    (department_id : Nat) : List Nat → WState → RunResult WState
  | [], s => .ok s
  | _ :: rest, s =>
    match sampleDemographics ratios s.rng with
    | .error msg => .raise msg
    | .ok ((birth_date, gender, ethnicity), r1) =>
      match generate_employee env job birth_date gender ethnicity
          (some department_id) none { s with rng := r1 } with
      | .raise msg => .raise msg
      | .hang => .hang
      | .ok s1 => generateBatch env ratios job department_id rest s1

/-- The batches loop for one jobs-spec entry of `generate_department`. -/
def generateBatches (env : WorkflowEnv) (ratios : Ratios) (job : Job)
    (department_id : Nat) : List (List Nat) → WState → RunResult WState
  | [], s => .ok s
  | batch :: rest, s =>
    match generateBatch env ratios job department_id batch s with
    | .raise msg => .raise msg
    | .hang => .hang
    | .ok s1 => generateBatches env ratios job department_id rest s1

/-- The `for job_spec in department.jobs` loop of `generate_department`:
`batch_iterator(list(range(job_spec.headcount)), batch_size=5)`. -/
def generateJobSpecs (env : WorkflowEnv) (ratios : Ratios)
    (department_id : Nat) : List JobsSpec → WState → RunResult WState
  | [], s => .ok s
  | js :: rest, s =>
    match batch_iterator (List.range js.headcount) 5 with
    | .error msg => .raise msg
    | .ok batches =>
      match generateBatches env ratios js.job department_id batches s with
      | .raise msg => .raise msg
      | .hang => .hang
      | .ok s1 => generateJobSpecs env ratios department_id rest s1

/-- `generate_department` (`workflow.py`, lines 292-325): generate the
manager as an employee of the department, then the rank-and-file per jobs
spec. -/
def generate_department (env : WorkflowEnv) (ratios : Ratios)
    (department : Department) (s : WState) : RunResult WState :=
  match sampleDemographics ratios s.rng with
  | .error msg => .raise msg
  | .ok ((birth_date, gender, ethnicity), r1) =>
    match generate_employee env department.manager birth_date gender ethnicity
        (some department.id) none { s with rng := r1 } with
    | .raise msg => .raise msg
    | .hang => .hang
    | .ok s1 => generateJobSpecs env ratios department.id department.jobs s1

/-- The `for department in business_unit.departments` loop of
`dataset_workflow` (lines 380-382). -/
def workDepartments (env : WorkflowEnv) (ratios : Ratios)
    (business_unit_id : Nat) : List Department → WState → RunResult WState
  | [], s => .ok s
  | department :: rest, s =>
    match add_department_to_db department business_unit_id s with
    | .raise msg => .raise msg
    | .hang => .hang
    | .ok s1 =>
      match generate_department env ratios department s1 with
      | .raise msg => .raise msg
      | .hang => .hang
      | .ok s2 => workDepartments env ratios business_unit_id rest s2

/-- The `for business_unit in company.business_units` loop of
`dataset_workflow` (lines 364-382). -/
def workBusinessUnits (env : WorkflowEnv) (ratios : Ratios) :
    List BusinessUnit → WState → RunResult WState
  | [], s => .ok s
  | bu :: rest, s =>
    match add_business_unit_to_db bu s with
    | .raise msg => .raise msg
    | .hang => .hang
    | .ok s1 =>
      match sampleDemographics ratios s1.rng with
      | .error msg => .raise msg
      | .ok ((birth_date, gender, ethnicity), r1) =>
        match generate_employee env bu.director birth_date gender ethnicity
            none (some bu.id) { s1 with rng := r1 } with
        | .raise msg => .raise msg
        | .hang => .hang
        | .ok s2 =>
          match workDepartments env ratios bu.id bu.departments s2 with
          | .raise msg => .raise msg
          | .hang => .hang
          | .ok s3 => workBusinessUnits env ratios rest s3

/-- `dataset_workflow` (`workflow.py`, lines 331-384): company spec, ratios,
database creation, the business-unit loop, then the completion message
interpolating `db_name` (which is `None`). -/
def dataset_workflow (env : WorkflowEnv) (user_input : String) (s : WState) :
    RunResult (String × WState) :=
  match env.spec_result user_input with
  | .error msg => .raise msg
  | .ok company =>
    match env.ratios_result company with
    | .error msg => .raise msg
    | .ok ratios =>
      match create_database s with
      | .raise msg => .raise msg
      | .hang => .hang
      | .ok (db_name, s1) =>
        match workBusinessUnits env ratios company.business_units s1 with
        | .raise msg => .raise msg
        | .hang => .hang
        | .ok s2 =>
          .ok ("Dataset generation completed. Database: " ++ pyFormat db_name, s2)

/-! ## Theorems -/

theorem batchChunks_flatten {α : Type} (b : Nat) (l : List α) :
    (batchChunks b l).flatten = l := by
  induction l using batchChunks.induct b with
  | case1 => simp [batchChunks]
  | case2 x xs ih =>
    rw [batchChunks]
    simp only [List.flatten_cons]
    rw [ih, List.take_append_drop]

theorem batchChunks_eq_nil {α : Type} (b : Nat) (l : List α) :
    batchChunks b l = [] ↔ l = [] := by
  cases l with
  | nil => simp [batchChunks]
  | cons x xs => rw [batchChunks]; simp

theorem batchChunks_dropLast_length {α : Type} (b : Nat) (l : List α) :
    ∀ c ∈ (batchChunks b l).dropLast, c.length = b + 1 := by
  induction l using batchChunks.induct b with
  | case1 => simp [batchChunks]
  | case2 x xs ih =>
    rw [batchChunks]
    by_cases hd : List.drop (b + 1) (x :: xs) = []
    · rw [hd]
      simp [batchChunks]
    · rw [List.dropLast_cons_of_ne_nil (by rw [ne_eq, batchChunks_eq_nil]; exact hd)]
      intro c hc
      rcases List.mem_cons.mp hc with h | h
      · subst h
        have hlen : b + 1 < (x :: xs).length := by
          have h2 : (List.drop (b + 1) (x :: xs)).length ≠ 0 := by
            intro h0
            exact hd (List.length_eq_zero.mp h0)
          rw [List.length_drop] at h2
          omega
        rw [List.length_take]
        omega
      · exact ih c h

/-- C9: for every input list and positive batch size `n`, `batch_iterator`
yields batches whose concatenation reconstructs the input in order, every
batch except possibly the last has exactly `n` elements, and an empty input
yields zero batches. -/
theorem batch_iterator_spec {α : Type} (dataset : List α) (n : Nat) (hn : 0 < n) :
    ∃ bs, batch_iterator dataset n = .ok bs ∧
      bs.flatten = dataset ∧
      (∀ c ∈ bs.dropLast, c.length = n) ∧
      (dataset = [] → bs = []) := by
  match n, hn with
  | b + 1, _ =>
    refine ⟨batchChunks b dataset, rfl, batchChunks_flatten b dataset,
      batchChunks_dropLast_length b dataset, fun h => ?_⟩
    rw [h]
    simp [batchChunks]

/-- C9 witness: evaluation of `batch_iterator` at a concrete input. -/
theorem batch_iterator_spec_witness :
    0 < 2 ∧
      ∃ bs, batch_iterator [10, 20, 30, 40, 50] 2 = .ok bs ∧
        bs.flatten = [10, 20, 30, 40, 50] ∧
        (∀ c ∈ bs.dropLast, c.length = 2) ∧
        ([10, 20, 30, 40, 50] = ([] : List Nat) → bs = []) :=
  ⟨by decide, batch_iterator_spec [10, 20, 30, 40, 50] 2 (by decide)⟩

/-- `PDate.lt d ⟨Y, 1, 1⟩` is just a year comparison once the date has a
month and day of at least 1. -/
theorem PDate_lt_jan1 (d : PDate) (hm : 1 ≤ d.month) (hdy : 1 ≤ d.day) (Y : Nat) :
    PDate.lt d ⟨Y, 1, 1⟩ = true ↔ d.year < Y := by
  simp only [PDate.lt, Bool.or_eq_true, Bool.and_eq_true, decide_eq_true_eq, beq_iff_eq]
  omega

/-- The four year bands of the derived generation, for dates with month and
day of at least 1. -/
theorem generationOfDate_of_year (d : PDate) (hm : 1 ≤ d.month) (hdy : 1 ≤ d.day) :
    (d.year ≤ 1964 → generationOfDate d = .ok .BABY_BOOMER) ∧
    (1965 ≤ d.year → d.year ≤ 1980 → generationOfDate d = .ok .GEN_X) ∧
    (1981 ≤ d.year → d.year ≤ 1996 → generationOfDate d = .ok .MILLENNIAL) ∧
    (1997 ≤ d.year → d.year ≤ 2015 → generationOfDate d = .ok .GEN_Z) := by
  have hlt := PDate_lt_jan1 d hm hdy
  refine ⟨fun h1 => ?_, fun h1 h2 => ?_, fun h1 h2 => ?_, fun h1 h2 => ?_⟩ <;>
    simp only [generationOfDate]
  · rw [if_pos ((hlt 1965).mpr (by omega))]
  · rw [if_neg (fun hc => by have := (hlt 1965).mp hc; omega),
      if_pos ((hlt 1981).mpr (by omega))]
  · rw [if_neg (fun hc => by have := (hlt 1965).mp hc; omega),
      if_neg (fun hc => by have := (hlt 1981).mp hc; omega),
      if_pos ((hlt 1997).mpr (by omega))]
  · rw [if_neg (fun hc => by have := (hlt 1965).mp hc; omega),
      if_neg (fun hc => by have := (hlt 1981).mp hc; omega),
      if_neg (fun hc => by have := (hlt 1997).mp hc; omega),
      if_pos ((hlt 2016).mpr (by omega))]

/-- The fixed year range of each generation, as sampled by `get_birth_date`. -/
def genYearRange : Generation → Nat × Nat
  | .BABY_BOOMER => (1946, 1964)
  | .GEN_X => (1965, 1980)
  | .MILLENNIAL => (1981, 1996)
  | .GEN_Z => (1997, 2012)

/-- C6: for each generation, `get_birth_date` returns a date in the fixed
year range with month in 1-12 and day in 1-28 whose derived generation is
that generation; any other argument raises `ValueError`. -/
theorem get_birth_date_spec (g : Generation) (r : Rng) :
    (∃ d r1, get_birth_date (.gen g) r = .ok (d, r1) ∧
      (genYearRange g).1 ≤ d.year ∧ d.year ≤ (genYearRange g).2 ∧
      1 ≤ d.month ∧ d.month ≤ 12 ∧ 1 ≤ d.day ∧ d.day ≤ 28 ∧
      generationOfDate d = .ok g) ∧
    get_birth_date .invalid r = .error "Invalid generation" := by
  have h12 : r.stream (r.pos + 1) % 12 < 12 := Nat.mod_lt _ (by omega)
  have h28 : r.stream (r.pos + 1 + 1) % 28 < 28 := Nat.mod_lt _ (by omega)
  refine ⟨?_, rfl⟩
  cases g
  case BABY_BOOMER =>
    have hy : r.stream r.pos % 19 < 19 := Nat.mod_lt _ (by omega)
    refine ⟨⟨1946 + r.stream r.pos % 19, 1 + r.stream (r.pos + 1) % 12,
      1 + r.stream (r.pos + 1 + 1) % 28⟩, ⟨r.stream, r.pos + 1 + 1 + 1⟩,
      rfl, ?_, ?_, ?_, ?_, ?_, ?_, ?_⟩
    · simp only [genYearRange]; omega
    · simp only [genYearRange]; omega
    · simp only []; omega
    · simp only []; omega
    · simp only []; omega
    · simp only []; omega
    · exact (generationOfDate_of_year _ (by simp only []; omega)
        (by simp only []; omega)).1 (by simp only []; omega)
  case GEN_X =>
    have hy : r.stream r.pos % 16 < 16 := Nat.mod_lt _ (by omega)
    refine ⟨⟨1965 + r.stream r.pos % 16, 1 + r.stream (r.pos + 1) % 12,
      1 + r.stream (r.pos + 1 + 1) % 28⟩, ⟨r.stream, r.pos + 1 + 1 + 1⟩,
      rfl, ?_, ?_, ?_, ?_, ?_, ?_, ?_⟩
    · simp only [genYearRange]; omega
    · simp only [genYearRange]; omega
    · simp only []; omega
    · simp only []; omega
    · simp only []; omega
    · simp only []; omega
    · exact (generationOfDate_of_year _ (by simp only []; omega)
        (by simp only []; omega)).2.1 (by simp only []; omega) (by simp only []; omega)
  case MILLENNIAL =>
    have hy : r.stream r.pos % 16 < 16 := Nat.mod_lt _ (by omega)
    refine ⟨⟨1981 + r.stream r.pos % 16, 1 + r.stream (r.pos + 1) % 12,
      1 + r.stream (r.pos + 1 + 1) % 28⟩, ⟨r.stream, r.pos + 1 + 1 + 1⟩,
      rfl, ?_, ?_, ?_, ?_, ?_, ?_, ?_⟩
    · simp only [genYearRange]; omega
    · simp only [genYearRange]; omega
    · simp only []; omega
    · simp only []; omega
    · simp only []; omega
    · simp only []; omega
    · exact (generationOfDate_of_year _ (by simp only []; omega)
        (by simp only []; omega)).2.2.1 (by simp only []; omega) (by simp only []; omega)
  case GEN_Z =>
    have hy : r.stream r.pos % 16 < 16 := Nat.mod_lt _ (by omega)
    refine ⟨⟨1997 + r.stream r.pos % 16, 1 + r.stream (r.pos + 1) % 12,
      1 + r.stream (r.pos + 1 + 1) % 28⟩, ⟨r.stream, r.pos + 1 + 1 + 1⟩,
      rfl, ?_, ?_, ?_, ?_, ?_, ?_, ?_⟩
    · simp only [genYearRange]; omega
    · simp only [genYearRange]; omega
    · simp only []; omega
    · simp only []; omega
    · simp only []; omega
    · simp only []; omega
    · exact (generationOfDate_of_year _ (by simp only []; omega)
        (by simp only []; omega)).2.2.2 (by simp only []; omega) (by simp only []; omega)

theorem wrcLoop_mem {K : Type} : ∀ (choices : List (K × ℚ)) (r : ℚ) (k : K),
    wrcLoop choices r = some k → k ∈ choices.map Prod.fst := by
  intro choices
  induction choices with
  | nil => intro r k h; simp [wrcLoop] at h
  | cons p rest ih =>
    intro r k h
    obtain ⟨item, weight⟩ := p
    rw [wrcLoop] at h
    by_cases hc : r < weight
    · rw [if_pos hc] at h
      cases h
      simp
    · rw [if_neg hc] at h
      simp only [List.map_cons, List.mem_cons]
      exact Or.inr (ih _ _ h)

theorem wrcLoop_eq_cum {K : Type} : ∀ (choices : List (K × ℚ)) (acc r : ℚ),
    wrcLoop choices (r - acc) = cumFirstExceeding acc choices r := by
  intro choices
  induction choices with
  | nil => intro acc r; rfl
  | cons p rest ih =>
    intro acc r
    obtain ⟨k, w⟩ := p
    rw [wrcLoop, cumFirstExceeding]
    have hiff : r - acc < w ↔ r < acc + w := by
      constructor <;> intro <;> linarith
    by_cases hc : r - acc < w
    · rw [if_pos hc, if_pos (hiff.mp hc)]
    · rw [if_neg hc, if_neg (fun hx => hc (hiff.mpr hx))]
      have harith : r - acc - w = r - (acc + w) := by ring
      rw [harith, ih]

theorem wrcLoop_eq_specFirstExceeding {K : Type} (choices : List (K × ℚ)) (r : ℚ) :
    wrcLoop choices r = specFirstExceeding choices r := by
  have h := wrcLoop_eq_cum choices 0 r
  rw [sub_zero] at h
  exact h

theorem uniform_bounds (total : ℚ) (htotal : 0 < total) (r : Rng) :
    0 ≤ (uniform 0 total r).1 ∧ (uniform 0 total r).1 < total := by
  have hD : (0 : ℚ) < (randUnitDen : ℚ) := by
    have : 0 < randUnitDen := Nat.two_pow_pos 53
    exact_mod_cast this
  have hm : ((r.stream r.pos % randUnitDen : ℕ) : ℚ) < (randUnitDen : ℚ) := by
    have : r.stream r.pos % randUnitDen < randUnitDen :=
      Nat.mod_lt _ (Nat.two_pow_pos 53)
    exact_mod_cast this
  have hm0 : (0 : ℚ) ≤ ((r.stream r.pos % randUnitDen : ℕ) : ℚ) := by positivity
  simp only [uniform, zero_add, sub_zero]
  constructor
  · positivity
  · rw [mul_div_assoc]
    have hlt1 : ((r.stream r.pos % randUnitDen : ℕ) : ℚ) / (randUnitDen : ℚ) < 1 :=
      (div_lt_one hD).mpr hm
    calc total * (((r.stream r.pos % randUnitDen : ℕ) : ℚ) / (randUnitDen : ℚ))
        < total * 1 := by exact mul_lt_mul_of_pos_left hlt1 htotal
      _ = total := mul_one total

/-- C7: for a non-empty mapping with positive weights,
`weighted_random_choice` draws uniformly in `[0, total)` and returns a key
of the mapping: the first key in iteration order whose cumulative weight
exceeds the draw, or — when no cumulative prefix exceeds the draw — the
last key in iteration order as a defined fallback, not an error. -/
theorem weighted_random_choice_spec {K : Type} (choices : List (K × ℚ)) (rng : Rng)
    (hne : choices ≠ []) (hpos : ∀ p ∈ choices, 0 < p.2) :
    (0 ≤ (uniform 0 (choices.map Prod.snd).sum rng).1 ∧
      (uniform 0 (choices.map Prod.snd).sum rng).1 < (choices.map Prod.snd).sum) ∧
    (weighted_random_choice choices rng).1
        = wrcCore choices (uniform 0 (choices.map Prod.snd).sum rng).1 ∧
    (∃ k, (weighted_random_choice choices rng).1 = some k ∧ k ∈ choices.map Prod.fst) ∧
    (∀ u k, specFirstExceeding choices u = some k → wrcCore choices u = some k) ∧
    (∀ u : ℚ, specFirstExceeding choices u = none →
      wrcCore choices u = (choices.map Prod.fst).getLast?) := by
  have htotal : 0 < (choices.map Prod.snd).sum := by
    apply List.sum_pos
    · intro x hx
      obtain ⟨p, hp, hpx⟩ := List.mem_map.mp hx
      exact hpx ▸ hpos p hp
    · simp [hne]
  have hmapne : choices.map Prod.fst ≠ [] := by simp [hne]
  have hcore : ∀ u : ℚ, ∃ k, wrcCore choices u = some k ∧ k ∈ choices.map Prod.fst := by
    intro u
    rw [wrcCore]
    cases hloop : wrcLoop choices u with
    | some k => exact ⟨k, rfl, wrcLoop_mem choices u k hloop⟩
    | none =>
      refine ⟨(choices.map Prod.fst).getLast hmapne,
        List.getLast?_eq_getLast _ hmapne, List.getLast_mem hmapne⟩
  refine ⟨uniform_bounds _ htotal rng, rfl, hcore _, ?_, ?_⟩
  · intro u k h
    rw [wrcCore, wrcLoop_eq_specFirstExceeding, h]
  · intro u h
    rw [wrcCore, wrcLoop_eq_specFirstExceeding, h]

/-- Concrete weight mapping for the C7 witness. -/
def wrcChoicesW : List (String × ℚ) := [("A", 7 / 10), ("B", 2 / 10), ("C", 1 / 10)]

/-- C7 witness: `weighted_random_choice` evaluated on a concrete mapping. -/
theorem weighted_random_choice_spec_witness :
    (wrcChoicesW ≠ [] ∧ ∀ p ∈ wrcChoicesW, 0 < p.2) ∧
    (∃ k, (weighted_random_choice wrcChoicesW ⟨fun i => i, 0⟩).1 = some k ∧
      k ∈ wrcChoicesW.map Prod.fst) :=
  ⟨⟨by simp [wrcChoicesW], by intro p hp; fin_cases hp <;> norm_num [wrcChoicesW]⟩,
    (weighted_random_choice_spec wrcChoicesW ⟨fun i => i, 0⟩ (by simp [wrcChoicesW])
      (by intro p hp; fin_cases hp <;> norm_num [wrcChoicesW])).2.2.1⟩

/-- C4 counterexample: pydantic `Employee(...)` construction with
birth_date 2016-01-01 succeeds — computed fields are not evaluated at
construction time — while the derived generation raises only when it is
computed (on attribute access or serialization). -/
theorem employee_construct_2016_succeeds :
    Employee.construct 1 2 (some 3) none ⟨2016, 1, 1⟩ .MALE .ASIAN none none
        = .ok ⟨1, 2, some 3, none, ⟨2016, 1, 1⟩, .MALE, .ASIAN, none, none⟩ ∧
    Employee.generation ⟨1, 2, some 3, none, ⟨2016, 1, 1⟩, .MALE, .ASIAN, none, none⟩
        = .error "Unknown generation" :=
  ⟨rfl, rfl⟩

/-- C4 (amended): birth_date 1996-12-31 derives Millennial and 1997-01-01
derives Gen Z; for any birth_date of 2016-01-01 or later, constructing the
Employee succeeds but computing its derived generation fails with the
distinct `Unknown generation` error rather than silently coercing the date
into a cohort. -/
theorem generation_boundary_spec (e : Employee)
    (h : PDate.lt e.birth_date ⟨2016, 1, 1⟩ = false) :
    generationOfDate ⟨1996, 12, 31⟩ = .ok .MILLENNIAL ∧
    generationOfDate ⟨1997, 1, 1⟩ = .ok .GEN_Z ∧
    Employee.construct e.id e.job_id e.department_id e.business_unit_id e.birth_date
        e.gender e.ethnicity e.education_level e.education_field = .ok e ∧
    Employee.generation e = .error "Unknown generation" := by
  have hy : 2016 ≤ e.birth_date.year := by
    by_contra hlt
    have htrue : PDate.lt e.birth_date ⟨2016, 1, 1⟩ = true := by
      simp only [PDate.lt, Bool.or_eq_true, Bool.and_eq_true, decide_eq_true_eq, beq_iff_eq]
      omega
    rw [h] at htrue
    exact Bool.noConfusion htrue
  have hfalse : ∀ Y : Nat, Y ≤ 2015 → PDate.lt e.birth_date ⟨Y, 1, 1⟩ = false := by
    intro Y hY
    apply Bool.eq_false_iff.mpr
    intro hc
    simp only [PDate.lt, Bool.or_eq_true, Bool.and_eq_true, decide_eq_true_eq,
      beq_iff_eq] at hc
    omega
  refine ⟨rfl, rfl, rfl, ?_⟩
  simp [Employee.generation, generationOfDate, hfalse 1965 (by omega),
    hfalse 1981 (by omega), hfalse 1997 (by omega), h]

/-- C4 witness: the amended boundary statement at a concrete late date. -/
theorem generation_boundary_spec_witness :
    PDate.lt (⟨2020, 5, 5⟩ : PDate) ⟨2016, 1, 1⟩ = false ∧
    Employee.generation ⟨9, 8, none, some 7, ⟨2020, 5, 5⟩, .FEMALE, .WHITE, none, none⟩
        = .error "Unknown generation" :=
  ⟨rfl, (generation_boundary_spec
    ⟨9, 8, none, some 7, ⟨2020, 5, 5⟩, .FEMALE, .WHITE, none, none⟩ rfl).2.2.2⟩

/-- Faker state used in the C5 example: the identity raw stream. -/
def fakerCE : FakerState := ⟨fun i => i, 0⟩

/-- Name pools used in the C5 example: the name is the decimal rendering of
the draw. -/
def poolsCE : NamePools := ⟨Nat.repr, Nat.repr, Nat.repr, Nat.repr, Nat.repr, Nat.repr⟩

/-- Employee used in the C5 example. -/
def employeeCE : Employee :=
  ⟨0, 0, some 1, none, ⟨1990, 1, 1⟩, .MALE, .ASIAN, none, none⟩

/-- Second employee used in the C5 witness: same gender, different other
fields. -/
def employeeCE2 : Employee :=
  ⟨5, 9, none, some 2, ⟨1985, 6, 2⟩, .MALE, .WHITE, none, none⟩

/-- C5 counterexample: evaluating `first_name` twice on the same Employee
yields two different names — each evaluation consumes a fresh Faker draw,
so the derived name is not a deterministic function of the employee's
fields. -/
theorem first_name_not_deterministic :
    (Employee.first_name poolsCE employeeCE fakerCE).1
      ≠ (Employee.first_name poolsCE employeeCE
          (Employee.first_name poolsCE employeeCE fakerCE).2).1 := by
  decide

/-- C5 (amended): sampling is a pure function of the generator state, so
equal states reproduce identical results; each evaluation of
`first_name` / `last_name` draws a gender-consistent name from the
gender's pool, depending only on the gender and the Faker state — not on
the employee's other fields — and advancing the state, so repeated
evaluations on the same Employee may yield different names. -/
theorem name_generation_spec (p : NamePools) (e e2 : Employee) (f : FakerState)
    (g : GenArg) (r1 r2 : Rng) (hr : r1 = r2) (hg : e.gender = e2.gender) :
    get_birth_date g r1 = get_birth_date g r2 ∧
    (∀ choices : List (String × ℚ),
      weighted_random_choice choices r1 = weighted_random_choice choices r2) ∧
    Employee.first_name p e f = Employee.first_name p e2 f ∧
    Employee.last_name p e f = Employee.last_name p e2 f ∧
    (Employee.first_name p e f).1 = (match e.gender with
      | .MALE => p.male_first (f.stream f.pos)
      | .FEMALE => p.female_first (f.stream f.pos)
      | _ => p.any_first (f.stream f.pos)) ∧
    (Employee.first_name p e f).2 = ⟨f.stream, f.pos + 1⟩ := by
  subst hr
  refine ⟨rfl, fun _ => rfl, ?_, ?_, ?_, ?_⟩
  · simp only [Employee.first_name, FakerState.draw, hg]
  · simp only [Employee.last_name, FakerState.draw, hg]
  · cases hcase : e.gender <;> simp [Employee.first_name, FakerState.draw, hcase]
  · cases hcase : e.gender <;> simp [Employee.first_name, FakerState.draw, hcase]

/-- C5 witness: the amended statement at concrete inputs. -/
theorem name_generation_spec_witness :
    ((⟨fun i => i, 0⟩ : Rng) = (⟨fun i => i, 0⟩ : Rng) ∧
      employeeCE.gender = employeeCE2.gender) ∧
    Employee.first_name poolsCE employeeCE fakerCE
      = Employee.first_name poolsCE employeeCE2 fakerCE :=
  ⟨⟨rfl, rfl⟩, (name_generation_spec poolsCE employeeCE employeeCE2 fakerCE
    (.gen .GEN_X) ⟨fun i => i, 0⟩ ⟨fun i => i, 0⟩ rfl rfl).2.2.1⟩

theorem dump_ok_shape (p : NamePools) (e : Employee) (f : FakerState) (g : Generation)
    (hg : Employee.generation e = .ok g) :
    ∃ fn ln f2, Employee.dump p e f = .ok (⟨e.id, e.job_id, e.department_id,
      e.business_unit_id, fn, ln, e.birth_date, e.gender, e.ethnicity,
      e.education_level, e.education_field, g⟩, f2) := by
  rcases hfn : Employee.first_name p e f with ⟨fn, f1⟩
  rcases hln : Employee.last_name p e f1 with ⟨ln, f2⟩
  exact ⟨fn, ln, f2, by simp only [Employee.dump, hfn, hln, hg]⟩

theorem dump_ok_inv (p : NamePools) (e : Employee) (f : FakerState)
    (row : EmployeeRow) (f2 : FakerState)
    (h : Employee.dump p e f = .ok (row, f2)) :
    row.id = e.id ∧ row.job_id = e.job_id ∧ row.department_id = e.department_id ∧
      row.business_unit_id = e.business_unit_id ∧ row.birth_date = e.birth_date := by
  rcases hfn : Employee.first_name p e f with ⟨fn, f1⟩
  rcases hln : Employee.last_name p e f1 with ⟨ln, f2'⟩
  simp only [Employee.dump, hfn, hln] at h
  cases hg : Employee.generation e with
  | error msg => rw [hg] at h; exact absurd h (by simp)
  | ok g =>
    rw [hg] at h
    simp only [Except.ok.injEq, Prod.mk.injEq] at h
    obtain ⟨hrow, _⟩ := h
    subst hrow
    exact ⟨rfl, rfl, rfl, rfl, rfl⟩

/-- On a check-constraint violation (both or neither parent set) the
`add_employee` retry loop never exits: regenerating the id cannot repair
the violation, every iteration fails again, and no error is ever re-raised
to the caller. -/
theorem add_employee_hang_of_check_violation (p : NamePools) :
    ∀ (fuel : Nat) (db : DB) (e : Employee) (ids : IdStream) (f : FakerState),
      (∃ g, Employee.generation e = .ok g) →
      exclusivityCheck e.department_id e.business_unit_id = false →
      Database.add_employee p fuel db e ids f = .hang := by
  intro fuel
  induction fuel with
  | zero => intro db e ids f _ _; rfl
  | succ n ih =>
    intro db e ids f hge hx
    obtain ⟨g, hg⟩ := hge
    obtain ⟨fn, ln, f2, hdump⟩ := dump_ok_shape p e f g hg
    have hviol : employeeInsertViolation db ⟨e.id, e.job_id, e.department_id,
        e.business_unit_id, fn, ln, e.birth_date, e.gender, e.ethnicity,
        e.education_level, e.education_field, g⟩ = true := by
      simp [employeeInsertViolation, hx]
    rw [Database.add_employee, hdump]
    simp only [hviol, if_true, IdStream.next]
    exact ih db _ _ _ ⟨g, by simpa [Employee.generation] using hg⟩ (by simpa using hx)

/-- On a foreign-key violation (compensation for a non-existent employee)
the `add_compensation` retry loop never exits for the same reason. -/
theorem add_compensation_hang_of_missing_employee :
    ∀ (fuel : Nat) (db : DB) (c : Compensation) (employee_id : Nat) (ids : IdStream),
      employee_id ∉ db.employeeIds →
      Database.add_compensation fuel db c employee_id ids = .hang := by
  intro fuel
  induction fuel with
  | zero => intro db c employee_id ids _; rfl
  | succ n ih =>
    intro db c employee_id ids hmem
    have hviol : compensationInsertViolation db ⟨c.id, employee_id,
        c.annual_base_salary, c.annual_bonus_amount, c.annual_commission_amount,
        c.rate_type, c.total_compensation⟩ = true := by
      simp [compensationInsertViolation, hmem]
    rw [Database.add_compensation]
    simp only [hviol, if_true, IdStream.next]
    exact ih db _ _ _ hmem

/-- A freshly created database file: empty tables, empty trace. -/
def emptyDb : DB := ⟨defaultDbPath, [], [], [], [], [], []⟩

/-- An employee violating the mutual-exclusivity check: both department_id
and business_unit_id set. -/
def employeeBothParents : Employee :=
  ⟨0, 0, some 3, some 4, ⟨1990, 1, 1⟩, .FEMALE, .WHITE, none, none⟩

/-- C1 (code-bug evidence): inserting an employee that violates the check
constraint does not propagate a fatal error — the catch-all
`except ConstraintException` regenerates the id and retries forever, so the
call neither returns nor raises within any iteration budget; likewise for a
compensation whose employee foreign key cannot be satisfied. -/
theorem constraint_violation_not_fatal (p : NamePools) (fuel : Nat) (db : DB)
    (ids : IdStream) (f : FakerState) (c : Compensation) :
    Database.add_employee p fuel db employeeBothParents ids f = .hang ∧
    Database.add_compensation fuel emptyDb c 99 ids = .hang :=
  ⟨add_employee_hang_of_check_violation p fuel db employeeBothParents ids f
      ⟨.MILLENNIAL, rfl⟩ rfl,
    add_compensation_hang_of_missing_employee fuel emptyDb c 99 ids
      (by simp [emptyDb, DB.employeeIds])⟩

theorem add_employee_ok_inv (p : NamePools) :
    ∀ (fuel : Nat) (db : DB) (e : Employee) (ids : IdStream) (f : FakerState)
      (db1 : DB) (e1 : Employee) (ids1 : IdStream) (f1 : FakerState),
      Database.add_employee p fuel db e ids f = .ok (db1, e1, ids1, f1) →
      ∃ row : EmployeeRow, db1 = db.insertEmployeeRow row ∧
        employeeInsertViolation db row = false ∧
        row.id = e1.id ∧ row.job_id = e.job_id ∧
        row.department_id = e.department_id ∧
        row.business_unit_id = e.business_unit_id ∧
        row.birth_date = e.birth_date := by
  intro fuel
  induction fuel with
  | zero =>
    intro db e ids f db1 e1 ids1 f1 h
    exact absurd h (by rw [Database.add_employee]; simp)
  | succ n ih =>
    intro db e ids f db1 e1 ids1 f1 h
    rw [Database.add_employee] at h
    cases hdump : Employee.dump p e f with
    | error msg => rw [hdump] at h; exact absurd h (by simp)
    | ok val =>
      obtain ⟨row0, f2⟩ := val
      obtain ⟨hr_id, hr_job, hr_dept, hr_bu, hr_bd⟩ := dump_ok_inv p e f row0 f2 hdump
      simp only [hdump] at h
      by_cases hviol : employeeInsertViolation db row0 = true
      · rw [if_pos hviol] at h
        simp only [IdStream.next] at h
        obtain ⟨row, hdb1, hv, hid, hjob, hdept, hbu, hbd⟩ :=
          ih db _ _ _ db1 e1 ids1 f1 h
        exact ⟨row, hdb1, hv, hid, by simpa using hjob, by simpa using hdept,
          by simpa using hbu, by simpa using hbd⟩
      · rw [if_neg hviol] at h
        simp only [InsertOutcome.ok.injEq, Prod.mk.injEq] at h
        obtain ⟨h1, h2, _, _⟩ := h
        refine ⟨row0, h1.symm, by simpa using hviol, ?_, hr_job, hr_dept, hr_bu, hr_bd⟩
        rw [hr_id, h2]

theorem add_compensation_ok_inv :
    ∀ (fuel : Nat) (db : DB) (c : Compensation) (employee_id : Nat) (ids : IdStream)
      (db1 : DB) (c1 : Compensation) (ids1 : IdStream),
      Database.add_compensation fuel db c employee_id ids = .ok (db1, c1, ids1) →
      ∃ row : CompensationRow, db1 = db.insertCompensationRow row ∧
        compensationInsertViolation db row = false ∧
        row.id = c1.id ∧ row.employee_id = employee_id := by
  intro fuel
  induction fuel with
  | zero =>
    intro db c employee_id ids db1 c1 ids1 h
    exact absurd h (by rw [Database.add_compensation]; simp)
  | succ n ih =>
    intro db c employee_id ids db1 c1 ids1 h
    rw [Database.add_compensation] at h
    by_cases hviol : compensationInsertViolation db ⟨c.id, employee_id,
        c.annual_base_salary, c.annual_bonus_amount, c.annual_commission_amount,
        c.rate_type, c.total_compensation⟩ = true
    · rw [if_pos hviol] at h
      simp only [IdStream.next] at h
      exact ih db _ _ _ db1 c1 ids1 h
    · rw [if_neg hviol] at h
      simp only [InsertOutcome.ok.injEq, Prod.mk.injEq] at h
      obtain ⟨h1, h2, _⟩ := h
      refine ⟨_, h1.symm, by simpa using hviol, ?_, rfl⟩
      rw [← h2]

theorem add_employee_ok_of_fresh (p : NamePools) :
    ∀ (fuel : Nat) (db : DB) (e : Employee) (ids : IdStream) (f : FakerState)
      (g : Generation),
      Employee.generation e = .ok g →
      e.job_id ∈ db.jobIds →
      (∀ d, e.department_id = some d → d ∈ db.departmentIds) →
      (∀ b, e.business_unit_id = some b → b ∈ db.businessUnitIds) →
      exclusivityCheck e.department_id e.business_unit_id = true →
      ((0 < fuel ∧ e.id ∉ db.employeeIds) ∨
        (∃ k, k + 1 < fuel ∧ ids.stream (ids.pos + k) ∉ db.employeeIds)) →
      ∃ db1 e1 ids1 f1,
        Database.add_employee p fuel db e ids f = .ok (db1, e1, ids1, f1) ∧
        e1.id ∉ db.employeeIds ∧ e1.job_id = e.job_id ∧
        e1.department_id = e.department_id ∧
        e1.business_unit_id = e.business_unit_id := by
  intro fuel
  induction fuel with
  | zero =>
    intro db e ids f g hg hjob hdept hbu hx hfresh
    rcases hfresh with ⟨h0, _⟩ | ⟨k, hk, _⟩
    · omega
    · omega
  | succ n ih =>
    intro db e ids f g hg hjob hdept hbu hx hfresh
    obtain ⟨fn, ln, f2, hdump⟩ := dump_ok_shape p e f g hg
    rw [Database.add_employee]
    simp only [hdump]
    by_cases hid : e.id ∈ db.employeeIds
    · have hviol : employeeInsertViolation db ⟨e.id, e.job_id, e.department_id,
          e.business_unit_id, fn, ln, e.birth_date, e.gender, e.ethnicity,
          e.education_level, e.education_field, g⟩ = true := by
        simp [employeeInsertViolation, hid]
      simp only [hviol, if_true, IdStream.next]
      rcases hfresh with ⟨_, habs⟩ | ⟨k, hk1, hkf⟩
      · exact absurd hid habs
      · have hnext : ((0 < n ∧ ({ e with id := ids.stream ids.pos } : Employee).id
              ∉ db.employeeIds) ∨
            (∃ j, j + 1 < n ∧ (⟨ids.stream, ids.pos + 1⟩ : IdStream).stream
              ((⟨ids.stream, ids.pos + 1⟩ : IdStream).pos + j) ∉ db.employeeIds)) := by
          cases k with
          | zero => exact Or.inl ⟨by omega, by simpa using hkf⟩
          | succ j =>
            refine Or.inr ⟨j, by omega, ?_⟩
            have harith : ids.pos + 1 + j = ids.pos + (j + 1) := by omega
            simpa [harith] using hkf
        obtain ⟨db1, e1, ids1, f1, hrun, hfr, hj, hd, hb⟩ :=
          ih db { e with id := ids.stream ids.pos } ⟨ids.stream, ids.pos + 1⟩ f2 g
            (by simpa [Employee.generation] using hg) (by simpa using hjob)
            (by simpa using hdept) (by simpa using hbu) (by simpa using hx) hnext
        exact ⟨db1, e1, ids1, f1, hrun, hfr, by simpa using hj, by simpa using hd,
          by simpa using hb⟩
    · have h3 : (match e.department_id with
          | some d => !decide (d ∈ db.departmentIds)
          | none => false) = false := by
        cases hdd : e.department_id with
        | none => rfl
        | some d => simp [hdept d hdd]
      have h4 : (match e.business_unit_id with
          | some b => !decide (b ∈ db.businessUnitIds)
          | none => false) = false := by
        cases hbb : e.business_unit_id with
        | none => rfl
        | some b => simp [hbu b hbb]
      have hviol : employeeInsertViolation db ⟨e.id, e.job_id, e.department_id,
          e.business_unit_id, fn, ln, e.birth_date, e.gender, e.ethnicity,
          e.education_level, e.education_field, g⟩ = false := by
        simp [employeeInsertViolation, hid, hjob, hx, h3, h4]
      rw [if_neg (by simp [hviol])]
      exact ⟨_, _, _, _, rfl, hid, rfl, rfl, rfl⟩

theorem add_compensation_ok_of_fresh :
    ∀ (fuel : Nat) (db : DB) (c : Compensation) (employee_id : Nat) (ids : IdStream),
      employee_id ∈ db.employeeIds →
      ((0 < fuel ∧ c.id ∉ db.compensationIds) ∨
        (∃ k, k + 1 < fuel ∧ ids.stream (ids.pos + k) ∉ db.compensationIds)) →
      ∃ db1 c1 ids1,
        Database.add_compensation fuel db c employee_id ids = .ok (db1, c1, ids1) ∧
        c1.id ∉ db.compensationIds := by
  intro fuel
  induction fuel with
  | zero =>
    intro db c employee_id ids hemp hfresh
    rcases hfresh with ⟨h0, _⟩ | ⟨k, hk, _⟩
    · omega
    · omega
  | succ n ih =>
    intro db c employee_id ids hemp hfresh
    rw [Database.add_compensation]
    by_cases hid : c.id ∈ db.compensationIds
    · have hviol : compensationInsertViolation db ⟨c.id, employee_id,
          c.annual_base_salary, c.annual_bonus_amount, c.annual_commission_amount,
          c.rate_type, c.total_compensation⟩ = true := by
        simp [compensationInsertViolation, hid]
      simp only [hviol, if_true, IdStream.next]
      rcases hfresh with ⟨_, habs⟩ | ⟨k, hk1, hkf⟩
      · exact absurd hid habs
      · have hnext : ((0 < n ∧ ({ c with id := ids.stream ids.pos } : Compensation).id
              ∉ db.compensationIds) ∨
            (∃ j, j + 1 < n ∧ (⟨ids.stream, ids.pos + 1⟩ : IdStream).stream
              ((⟨ids.stream, ids.pos + 1⟩ : IdStream).pos + j) ∉ db.compensationIds)) := by
          cases k with
          | zero => exact Or.inl ⟨by omega, by simpa using hkf⟩
          | succ j =>
            refine Or.inr ⟨j, by omega, ?_⟩
            have harith : ids.pos + 1 + j = ids.pos + (j + 1) := by omega
            simpa [harith] using hkf
        exact ih db { c with id := ids.stream ids.pos } employee_id
          ⟨ids.stream, ids.pos + 1⟩ hemp hnext
    · have hviol : compensationInsertViolation db ⟨c.id, employee_id,
          c.annual_base_salary, c.annual_bonus_amount, c.annual_commission_amount,
          c.rate_type, c.total_compensation⟩ = false := by
        simp [compensationInsertViolation, hid, hemp]
      rw [if_neg (by simp [hviol])]
      exact ⟨_, _, _, rfl, hid⟩

/-- C2 counterexample: `add_job` performs a single insert attempt, so a
primary-key collision on the `jobs` table surfaces to the caller as a
constraint error instead of being recovered by regeneration. -/
theorem add_job_collision_surfaces :
    Database.add_job
        (emptyDb.insertJobRow ⟨5, "Engineer", none, .SENIOR, .ENGINEERING, .FULL_TIME, .REMOTE⟩)
        ⟨5, "Designer", none, .MID, .DESIGN, .FULL_TIME, .ONSITE⟩
      = .error "Constraint Error: duplicate key" := rfl

/-- C2 (amended): `insert_employee` and `insert_compensation` recover a
primary-key collision by regenerating the identifier and retrying until an
attempt succeeds — the second insert completes under a different, fresh
identifier and no error reaches the caller — while `insert_job`,
`insert_business_unit` and `insert_department` perform a single attempt and
surface the collision to the caller as a constraint error. -/
theorem insert_collision_policy (p : NamePools) (db : DB) :
    (∀ fuel (e : Employee) ids f g, Employee.generation e = .ok g →
      e.job_id ∈ db.jobIds →
      (∀ d, e.department_id = some d → d ∈ db.departmentIds) →
      (∀ b, e.business_unit_id = some b → b ∈ db.businessUnitIds) →
      exclusivityCheck e.department_id e.business_unit_id = true →
      e.id ∈ db.employeeIds →
      (∃ k, k + 1 < fuel ∧ ids.stream (ids.pos + k) ∉ db.employeeIds) →
      ∃ db1 e1 ids1 f1,
        Database.add_employee p fuel db e ids f = .ok (db1, e1, ids1, f1) ∧
        e1.id ≠ e.id ∧ e1.id ∉ db.employeeIds) ∧
    (∀ fuel (c : Compensation) employee_id ids, employee_id ∈ db.employeeIds →
      c.id ∈ db.compensationIds →
      (∃ k, k + 1 < fuel ∧ ids.stream (ids.pos + k) ∉ db.compensationIds) →
      ∃ db1 c1 ids1,
        Database.add_compensation fuel db c employee_id ids = .ok (db1, c1, ids1) ∧
        c1.id ≠ c.id ∧ c1.id ∉ db.compensationIds) ∧
    (∀ j : Job, j.id ∈ db.jobIds → ∃ msg, Database.add_job db j = .error msg) ∧
    (∀ buid nm desc djid, buid ∈ db.businessUnitIds →
      ∃ msg, Database.add_business_unit db buid nm desc djid = .error msg) ∧
    (∀ did nm desc mjid buid2, did ∈ db.departmentIds →
      ∃ msg, Database.add_department db did nm desc mjid buid2 = .error msg) := by
  refine ⟨?_, ?_, ?_, ?_, ?_⟩
  · intro fuel e ids f g hg hjob hdept hbu hx hcol hfresh
    obtain ⟨db1, e1, ids1, f1, hrun, hfr, _, _, _⟩ :=
      add_employee_ok_of_fresh p fuel db e ids f g hg hjob hdept hbu hx (Or.inr hfresh)
    exact ⟨db1, e1, ids1, f1, hrun, fun hEq => hfr (hEq ▸ hcol), hfr⟩
  · intro fuel c employee_id ids hemp hcol hfresh
    obtain ⟨db1, c1, ids1, hrun, hfr⟩ :=
      add_compensation_ok_of_fresh fuel db c employee_id ids hemp (Or.inr hfresh)
    exact ⟨db1, c1, ids1, hrun, fun hEq => hfr (hEq ▸ hcol), hfr⟩
  · intro j hj
    refine ⟨"Constraint Error: duplicate key", ?_⟩
    rw [Database.add_job, if_pos (by simpa [jobInsertViolation] using hj)]
  · intro buid nm desc djid hb
    refine ⟨"Constraint Error: duplicate key", ?_⟩
    rw [Database.add_business_unit,
      if_pos (by simpa [businessUnitInsertViolation] using hb)]
  · intro did nm desc mjid buid2 hd
    refine ⟨"Constraint Error", ?_⟩
    rw [Database.add_department,
      if_pos (by simp [departmentInsertViolation, hd])]

/-- Name pools used by the concrete storage fixtures: the name is the
decimal rendering of the Faker draw. -/
def pools0 : NamePools := ⟨Nat.repr, Nat.repr, Nat.repr, Nat.repr, Nat.repr, Nat.repr⟩

/-- Concrete database fixture: one job (id 1), one business unit (id 2, led
by job 1), one employee (id 7, job 1, attached to business unit 2). -/
def dbW : DB :=
  ((emptyDb.insertJobRow ⟨1, "Director of Engineering", none, .DIRECTOR, .ENGINEERING,
      .FULL_TIME, .REMOTE⟩).insertBusinessUnitRow
    ⟨2, "Core", none, 1⟩).insertEmployeeRow
    ⟨7, 1, none, some 2, "A", "B", ⟨1990, 1, 1⟩, .MALE, .ASIAN, none, none, .MILLENNIAL⟩

/-- Employee fixture whose id 7 collides with the employee already in `dbW`. -/
def eW : Employee := ⟨7, 1, none, some 2, ⟨1990, 1, 1⟩, .MALE, .ASIAN, none, none⟩

/-- Compensation fixture with a fresh id. -/
def cW : Compensation := ⟨50, 1, none, none, .SALARY⟩

/-- Identifier stream fixture: hands out 100, 101, 102, ... -/
def idsW : IdStream := ⟨fun i => 100 + i, 0⟩

/-- C2 witness: the collision policy evaluated on `dbW` — the colliding
employee insert succeeds under a regenerated id, the colliding job insert
errors. -/
theorem insert_collision_policy_witness :
    (∃ db1 e1 ids1 f1,
      Database.add_employee pools0 3 dbW eW idsW ⟨fun i => i, 0⟩ = .ok (db1, e1, ids1, f1) ∧
      e1.id ≠ eW.id ∧ e1.id ∉ dbW.employeeIds) ∧
    (∃ msg, Database.add_job dbW ⟨1, "Imposter", none, .MID, .DESIGN, .FULL_TIME, .ONSITE⟩
      = .error msg) :=
  ⟨(insert_collision_policy pools0 dbW).1 3 eW idsW ⟨fun i => i, 0⟩ .MILLENNIAL rfl
      (by decide)
      (by intro d hd; simp [eW] at hd)
      (by intro b hb; simp only [eW] at hb; cases hb; decide)
      rfl (by decide) ⟨0, by omega, by decide⟩,
    (insert_collision_policy pools0 dbW).2.2.1 _ (by decide)⟩

/-- C10: after `add_employee_to_db` returns successfully, the inserted
compensation row's employee_id equals the primary key under which the
employee row was actually committed (including when the employee's id was
regenerated during collision retry), because the id passed to the
compensation insert is read from the mutated employee only after the
employee insert completed. -/
theorem add_employee_to_db_links (env : WorkflowEnv) (e : Employee)
    (c : Compensation) (s s' : WState)
    (h : add_employee_to_db env e c s = .ok s') :
    ∃ erow crow, erow ∈ s'.db.employees ∧ crow ∈ s'.db.compensations ∧
      crow.employee_id = erow.id ∧
      erow.job_id = e.job_id ∧ erow.department_id = e.department_id ∧
      erow.business_unit_id = e.business_unit_id ∧
      erow.birth_date = e.birth_date := by
  rw [add_employee_to_db] at h
  cases hemp : Database.add_employee env.pools env.fuel s.db e s.ids s.faker with
  | raise msg => rw [hemp] at h; exact absurd h (by simp)
  | hang => rw [hemp] at h; exact absurd h (by simp)
  | ok val =>
    obtain ⟨db1, e1, ids1, f1⟩ := val
    simp only [hemp] at h
    cases hcomp : Database.add_compensation env.fuel db1 c e1.id ids1 with
    | raise msg => rw [hcomp] at h; exact absurd h (by simp)
    | hang => rw [hcomp] at h; exact absurd h (by simp)
    | ok val2 =>
      obtain ⟨db2, c2, ids2⟩ := val2
      simp only [hcomp, RunResult.ok.injEq] at h
      obtain ⟨erow, hdb1, _, her_id, her_job, her_dept, her_bu, her_bd⟩ :=
        add_employee_ok_inv env.pools env.fuel s.db e s.ids s.faker db1 e1 ids1 f1 hemp
      obtain ⟨crow, hdb2, _, _, hcr_emp⟩ :=
        add_compensation_ok_inv env.fuel db1 c e1.id ids1 db2 c2 ids2 hcomp
      have hsdb : s'.db = db2 := by rw [← h]
      refine ⟨erow, crow, ?_, ?_, ?_, her_job, her_dept, her_bu, her_bd⟩
      · rw [hsdb, hdb2, hdb1]
        simp [DB.insertCompensationRow, DB.insertEmployeeRow]
      · rw [hsdb, hdb2]
        simp [DB.insertCompensationRow]
      · rw [hcr_emp, her_id]

/-- Workflow environment fixture: the concrete pools, unused oracles, and
an iteration budget of 3. -/
def envW : WorkflowEnv :=
  ⟨pools0, fun _ => .error "unused", fun _ => .error "unused",
    fun _ _ => .error "unused", fun _ _ => .error "unused", 3⟩

/-- Workflow state fixture around `dbW`. -/
def sInW : WState := ⟨dbW, ⟨fun i => i, 0⟩, ⟨fun i => i, 0⟩, idsW⟩

/-- The state `add_employee_to_db envW eW cW sInW` computes: the employee
was committed under the regenerated id 100, the compensation row points at
100, two Faker names were drawn per attempt, and one identifier was
consumed. -/
def sOutW : WState :=
  ⟨(dbW.insertEmployeeRow
      ⟨100, 1, none, some 2, Nat.repr 2, Nat.repr 3, ⟨1990, 1, 1⟩, .MALE, .ASIAN,
        none, none, .MILLENNIAL⟩).insertCompensationRow
      ⟨50, 100, 1, none, none, .SALARY, cW.total_compensation⟩,
    ⟨fun i => i, 0⟩, ⟨fun i => i, 4⟩, ⟨fun i => 100 + i, 1⟩⟩

/-- C10 witness: `add_employee_to_db` on the collision fixture — employee
id 7 collides, id 100 is committed, and the compensation row points at the
committed id. -/
theorem add_employee_to_db_links_witness :
    add_employee_to_db envW eW cW sInW = .ok sOutW ∧
      ∃ erow crow, erow ∈ sOutW.db.employees ∧ crow ∈ sOutW.db.compensations ∧
        crow.employee_id = erow.id ∧
        erow.job_id = eW.job_id ∧ erow.department_id = eW.department_id ∧
        erow.business_unit_id = eW.business_unit_id ∧
        erow.birth_date = eW.birth_date :=
  ⟨by rfl, add_employee_to_db_links envW eW cW sInW sOutW (by rfl)⟩

/-- Oracle environment for the C3 run: the specification call yields a
company with no business units, so the run completes right after schema
creation; the remaining oracles are never reached. -/
def envC3 : WorkflowEnv :=
  ⟨pools0, fun _ => .ok ⟨0, "Acme Consulting", none, .CONSULTING, []⟩,
    fun _ => .ok ⟨⟨1, 0, 0, 0⟩, ⟨1, 0, 0, 0, 0⟩, ⟨0, 0, 1, 0⟩⟩,
    fun _ _ => .error "unused", fun _ _ => .error "unused", 3⟩

/-- Initial workflow state over a fresh database file. -/
def sC3 : WState := ⟨emptyDb, ⟨fun i => i, 0⟩, ⟨fun i => i, 0⟩, ⟨fun i => i, 0⟩⟩

/-- C3 (code-bug evidence): a successful workflow run returns the literal
summary "Dataset generation completed. Database: None" — `create_database`
returns Python `None` into `db_name` — and that summary cannot contain the
storage path actually used by the run: the default DuckDB file path
contains a `/` character while the summary contains none. -/
theorem workflow_summary_lacks_storage_location :
    (∃ s1, dataset_workflow envC3 "a small consulting firm in two cities" sC3
        = .ok ("Dataset generation completed. Database: None", s1)) ∧
    (∀ c ∈ "Dataset generation completed. Database: None".toList, c ≠ '/') ∧
    '/' ∈ defaultDbPath.toList :=
  ⟨⟨sC3, by rfl⟩, by decide, by decide⟩

/-- The ordering property of C8 over the trace of successful inserts: a
department row is never inserted before its parent business unit's row, and
a job row is inserted before any row that references it (a business unit's
director_job_id, a department's manager_job_id, or an employee's job_id). -/
def orderedTrace (tr : List Ev) : Prop :=
  (∀ i id buid mjid, tr.get? i = some (.department id buid mjid) →
      (∃ j, j < i ∧ ∃ djid, tr.get? j = some (.business_unit buid djid)) ∧
      (∃ j, j < i ∧ tr.get? j = some (.job mjid))) ∧
  (∀ i id djid, tr.get? i = some (.business_unit id djid) →
      ∃ j, j < i ∧ tr.get? j = some (.job djid)) ∧
  (∀ i id jid dep bu, tr.get? i = some (.employee id jid dep bu) →
      ∃ j, j < i ∧ tr.get? j = some (.job jid))

theorem trace_get_append_elim {tr : List Ev} {ev a : Ev} {i : Nat}
    (h : (tr ++ [ev]).get? i = some a) :
    (i < tr.length ∧ tr.get? i = some a) ∨ (i = tr.length ∧ a = ev) := by
  obtain ⟨hlt, _⟩ := List.get?_eq_some.mp h
  simp only [List.length_append, List.length_cons, List.length_nil] at hlt
  by_cases hi : i < tr.length
  · exact Or.inl ⟨hi, by rw [← List.get?_append hi]; exact h⟩
  · have hEq : i = tr.length := by omega
    subst hEq
    rw [List.get?_concat_length] at h
    exact Or.inr ⟨rfl, by injection h with h2; exact h2.symm⟩

theorem mem_trace_get {tr : List Ev} {a : Ev} (h : a ∈ tr) :
    ∃ j, j < tr.length ∧ tr.get? j = some a := by
  obtain ⟨n, hn⟩ := List.get?_of_mem h
  obtain ⟨hlt, _⟩ := List.get?_eq_some.mp hn
  exact ⟨n, hlt, hn⟩

theorem trace_get_append_of_lt {tr : List Ev} {ev : Ev} {j : Nat}
    (hj : j < tr.length) {a : Ev} (h : tr.get? j = some a) :
    (tr ++ [ev]).get? j = some a := by
  rw [List.get?_append hj]
  exact h

/-- Appending an insert event whose references are already present in the
trace preserves the ordering property. -/
theorem orderedTrace_append {tr : List Ev} {ev : Ev} (h : orderedTrace tr)
    (hev : match ev with
      | .department _ buid mjid =>
          (∃ djid, Ev.business_unit buid djid ∈ tr) ∧ Ev.job mjid ∈ tr
      | .business_unit _ djid => Ev.job djid ∈ tr
      | .employee _ jid _ _ => Ev.job jid ∈ tr
      | _ => True) :
    orderedTrace (tr ++ [ev]) := by
  obtain ⟨hdep, hbu, hemp⟩ := h
  refine ⟨?_, ?_, ?_⟩
  · intro i id buid mjid hget
    rcases trace_get_append_elim hget with ⟨hi, hold⟩ | ⟨hi, hEq⟩
    · obtain ⟨⟨j1, hj1, djid, hget1⟩, j2, hj2, hget2⟩ := hdep i id buid mjid hold
      obtain ⟨hj1len, _⟩ := List.get?_eq_some.mp hget1
      obtain ⟨hj2len, _⟩ := List.get?_eq_some.mp hget2
      exact ⟨⟨j1, hj1, djid, trace_get_append_of_lt hj1len hget1⟩,
        j2, hj2, trace_get_append_of_lt hj2len hget2⟩
    · have hev' : (∃ djid, Ev.business_unit buid djid ∈ tr) ∧ Ev.job mjid ∈ tr := by
        rw [← hEq] at hev
        exact hev
      obtain ⟨⟨djid, hmem1⟩, hmem2⟩ := hev'
      obtain ⟨j1, hj1len, hget1⟩ := mem_trace_get hmem1
      obtain ⟨j2, hj2len, hget2⟩ := mem_trace_get hmem2
      subst hi
      exact ⟨⟨j1, hj1len, djid, trace_get_append_of_lt hj1len hget1⟩,
        j2, hj2len, trace_get_append_of_lt hj2len hget2⟩
  · intro i id djid hget
    rcases trace_get_append_elim hget with ⟨hi, hold⟩ | ⟨hi, hEq⟩
    · obtain ⟨j, hj, hgetj⟩ := hbu i id djid hold
      obtain ⟨hjlen, _⟩ := List.get?_eq_some.mp hgetj
      exact ⟨j, hj, trace_get_append_of_lt hjlen hgetj⟩
    · have hev' : Ev.job djid ∈ tr := by
        rw [← hEq] at hev
        exact hev
      obtain ⟨j, hjlen, hgetj⟩ := mem_trace_get hev'
      subst hi
      exact ⟨j, hjlen, trace_get_append_of_lt hjlen hgetj⟩
  · intro i id jid dep bu hget
    rcases trace_get_append_elim hget with ⟨hi, hold⟩ | ⟨hi, hEq⟩
    · obtain ⟨j, hj, hgetj⟩ := hemp i id jid dep bu hold
      obtain ⟨hjlen, _⟩ := List.get?_eq_some.mp hgetj
      exact ⟨j, hj, trace_get_append_of_lt hjlen hgetj⟩
    · have hev' : Ev.job jid ∈ tr := by
        rw [← hEq] at hev
        exact hev
      obtain ⟨j, hjlen, hgetj⟩ := mem_trace_get hev'
      subst hi
      exact ⟨j, hjlen, trace_get_append_of_lt hjlen hgetj⟩

/-- Invariant carried through a run: the trace is ordered, every job id in
the `jobs` table has its insert event in the trace, and every business-unit
id in the `business_units` table has its insert event in the trace. -/
def dbInv (db : DB) : Prop :=
  orderedTrace db.trace ∧
  (∀ jid, jid ∈ db.jobIds → Ev.job jid ∈ db.trace) ∧
  (∀ b, b ∈ db.businessUnitIds → ∃ djid, Ev.business_unit b djid ∈ db.trace)

theorem dbInv_emptyDb : dbInv emptyDb := by
  refine ⟨⟨?_, ?_, ?_⟩, ?_, ?_⟩
  · intro i id buid mjid hget
    simp [emptyDb] at hget
  · intro i id djid hget
    simp [emptyDb] at hget
  · intro i id jid dep bu hget
    simp [emptyDb] at hget
  · intro jid hj
    simp [emptyDb, DB.jobIds] at hj
  · intro b hb
    simp [emptyDb, DB.businessUnitIds] at hb

theorem insertJobRow_trace (db : DB) (row : JobRow) :
    (db.insertJobRow row).trace = db.trace ++ [.job row.id] := rfl

theorem insertJobRow_jobIds (db : DB) (row : JobRow) :
    (db.insertJobRow row).jobIds = db.jobIds ++ [row.id] := by
  simp [DB.insertJobRow, DB.jobIds]

theorem add_job_ok_shape (db : DB) (j : Job) (db1 : DB)
    (h : Database.add_job db j = .ok db1) :
    db1 = db.insertJobRow ⟨j.id, j.name, j.description, j.job_level, j.job_family,
      j.contract_type, j.workplace_type⟩ := by
  simp only [Database.add_job] at h
  by_cases hv : jobInsertViolation db ⟨j.id, j.name, j.description, j.job_level,
      j.job_family, j.contract_type, j.workplace_type⟩ = true
  · rw [if_pos hv] at h
    exact absurd h (by simp)
  · rw [if_neg hv] at h
    injection h with h
    exact h.symm

theorem add_business_unit_ok_shape (db : DB) (buid : Nat) (nm : String)
    (desc : Option String) (djid : Nat) (db1 : DB)
    (h : Database.add_business_unit db buid nm desc djid = .ok db1) :
    db1 = db.insertBusinessUnitRow ⟨buid, nm, desc, djid⟩ := by
  simp only [Database.add_business_unit] at h
  by_cases hv : businessUnitInsertViolation db ⟨buid, nm, desc, djid⟩ = true
  · rw [if_pos hv] at h
    exact absurd h (by simp)
  · rw [if_neg hv] at h
    injection h with h
    exact h.symm

theorem add_department_ok_shape (db : DB) (did : Nat) (nm : String)
    (desc : Option String) (mjid buid : Nat) (db1 : DB)
    (h : Database.add_department db did nm desc mjid buid = .ok db1) :
    db1 = db.insertDepartmentRow ⟨did, nm, desc, mjid, buid⟩ ∧
      buid ∈ db.businessUnitIds := by
  simp only [Database.add_department] at h
  by_cases hv : departmentInsertViolation db ⟨did, nm, desc, mjid, buid⟩ = true
  · rw [if_pos hv] at h
    exact absurd h (by simp)
  · rw [if_neg hv] at h
    injection h with h
    refine ⟨h.symm, ?_⟩
    by_contra hb
    exact hv (by simp [departmentInsertViolation, hb])

theorem eiv_false_job (db : DB) (row : EmployeeRow)
    (h : employeeInsertViolation db row = false) : row.job_id ∈ db.jobIds := by
  by_contra hj
  have htrue : employeeInsertViolation db row = true := by
    simp [employeeInsertViolation, hj]
  rw [h] at htrue
  exact Bool.noConfusion htrue

theorem dbInv_add_job (db : DB) (j : Job) (db1 : DB) (hinv : dbInv db)
    (h : Database.add_job db j = .ok db1) :
    dbInv db1 ∧ (∀ a ∈ db.trace, a ∈ db1.trace) ∧ Ev.job j.id ∈ db1.trace := by
  obtain ⟨hord, hjobs, hbus⟩ := hinv
  have hshape := add_job_ok_shape db j db1 h
  subst hshape
  refine ⟨⟨?_, ?_, ?_⟩, ?_, ?_⟩
  · exact orderedTrace_append hord trivial
  · intro jid hj
    rw [insertJobRow_jobIds] at hj
    rw [insertJobRow_trace]
    rcases List.mem_append.mp hj with hold | hnew
    · exact List.mem_append_left _ (hjobs jid hold)
    · simp only [List.mem_singleton] at hnew
      subst hnew
      exact List.mem_append_right _ (by simp)
  · intro b hb
    have hb' : b ∈ db.businessUnitIds := by
      simpa [DB.insertJobRow, DB.businessUnitIds] using hb
    obtain ⟨djid, hmem⟩ := hbus b hb'
    exact ⟨djid, by rw [insertJobRow_trace]; exact List.mem_append_left _ hmem⟩
  · intro a ha
    rw [insertJobRow_trace]
    exact List.mem_append_left _ ha
  · rw [insertJobRow_trace]
    exact List.mem_append_right _ (by simp)

theorem dbInv_add_business_unit (db : DB) (buid : Nat) (nm : String)
    (desc : Option String) (djid : Nat) (db1 : DB) (hinv : dbInv db)
    (hdir : Ev.job djid ∈ db.trace)
    (h : Database.add_business_unit db buid nm desc djid = .ok db1) :
    dbInv db1 ∧ (∀ a ∈ db.trace, a ∈ db1.trace) := by
  obtain ⟨hord, hjobs, hbus⟩ := hinv
  have hshape := add_business_unit_ok_shape db buid nm desc djid db1 h
  subst hshape
  have htr : (db.insertBusinessUnitRow ⟨buid, nm, desc, djid⟩).trace
      = db.trace ++ [.business_unit buid djid] := rfl
  refine ⟨⟨?_, ?_, ?_⟩, ?_⟩
  · rw [htr]
    exact orderedTrace_append hord hdir
  · intro jid hj
    have hj' : jid ∈ db.jobIds := by
      simpa [DB.insertBusinessUnitRow, DB.jobIds] using hj
    rw [htr]
    exact List.mem_append_left _ (hjobs jid hj')
  · intro b hb
    have hb' : b ∈ db.businessUnitIds ++ [buid] := by
      simpa [DB.insertBusinessUnitRow, DB.businessUnitIds] using hb
    rw [htr]
    rcases List.mem_append.mp hb' with hold | hnew
    · obtain ⟨d2, hmem⟩ := hbus b hold
      exact ⟨d2, List.mem_append_left _ hmem⟩
    · simp only [List.mem_singleton] at hnew
      subst hnew
      exact ⟨djid, List.mem_append_right _ (by simp)⟩
  · intro a ha
    rw [htr]
    exact List.mem_append_left _ ha

theorem dbInv_add_department (db : DB) (did : Nat) (nm : String)
    (desc : Option String) (mjid buid : Nat) (db1 : DB) (hinv : dbInv db)
    (hmgr : Ev.job mjid ∈ db.trace)
    (h : Database.add_department db did nm desc mjid buid = .ok db1) :
    dbInv db1 ∧ (∀ a ∈ db.trace, a ∈ db1.trace) := by
  obtain ⟨hord, hjobs, hbus⟩ := hinv
  obtain ⟨hshape, hbumem⟩ := add_department_ok_shape db did nm desc mjid buid db1 h
  subst hshape
  have htr : (db.insertDepartmentRow ⟨did, nm, desc, mjid, buid⟩).trace
      = db.trace ++ [.department did buid mjid] := rfl
  refine ⟨⟨?_, ?_, ?_⟩, ?_⟩
  · rw [htr]
    exact orderedTrace_append hord ⟨hbus buid hbumem, hmgr⟩
  · intro jid hj
    have hj' : jid ∈ db.jobIds := by
      simpa [DB.insertDepartmentRow, DB.jobIds] using hj
    rw [htr]
    exact List.mem_append_left _ (hjobs jid hj')
  · intro b hb
    have hb' : b ∈ db.businessUnitIds := by
      simpa [DB.insertDepartmentRow, DB.businessUnitIds] using hb
    obtain ⟨d2, hmem⟩ := hbus b hb'
    exact ⟨d2, by rw [htr]; exact List.mem_append_left _ hmem⟩
  · intro a ha
    rw [htr]
    exact List.mem_append_left _ ha

theorem dbInv_add_employee_w (p : NamePools) (fuel : Nat) (db : DB) (e : Employee)
    (ids : IdStream) (f : FakerState) (db1 : DB) (e1 : Employee) (ids1 : IdStream)
    (f1 : FakerState) (hinv : dbInv db)
    (h : Database.add_employee p fuel db e ids f = .ok (db1, e1, ids1, f1)) :
    dbInv db1 ∧ (∀ a ∈ db.trace, a ∈ db1.trace) := by
  obtain ⟨row, hshape, hviol, _, _, _, _, _⟩ :=
    add_employee_ok_inv p fuel db e ids f db1 e1 ids1 f1 h
  obtain ⟨hord, hjobs, hbus⟩ := hinv
  subst hshape
  have htr : (db.insertEmployeeRow row).trace
      = db.trace ++ [.employee row.id row.job_id row.department_id row.business_unit_id] :=
    rfl
  have hjmem : Ev.job row.job_id ∈ db.trace := hjobs _ (eiv_false_job db row hviol)
  refine ⟨⟨?_, ?_, ?_⟩, ?_⟩
  · rw [htr]
    exact orderedTrace_append hord hjmem
  · intro jid hj
    have hj' : jid ∈ db.jobIds := by
      simpa [DB.insertEmployeeRow, DB.jobIds] using hj
    rw [htr]
    exact List.mem_append_left _ (hjobs jid hj')
  · intro b hb
    have hb' : b ∈ db.businessUnitIds := by
      simpa [DB.insertEmployeeRow, DB.businessUnitIds] using hb
    obtain ⟨d2, hmem⟩ := hbus b hb'
    exact ⟨d2, by rw [htr]; exact List.mem_append_left _ hmem⟩
  · intro a ha
    rw [htr]
    exact List.mem_append_left _ ha

theorem dbInv_add_compensation_w (fuel : Nat) (db : DB) (c : Compensation)
    (employee_id : Nat) (ids : IdStream) (db1 : DB) (c1 : Compensation)
    (ids1 : IdStream) (hinv : dbInv db)
    (h : Database.add_compensation fuel db c employee_id ids = .ok (db1, c1, ids1)) :
    dbInv db1 ∧ (∀ a ∈ db.trace, a ∈ db1.trace) := by
  obtain ⟨row, hshape, _, _, _⟩ :=
    add_compensation_ok_inv fuel db c employee_id ids db1 c1 ids1 h
  obtain ⟨hord, hjobs, hbus⟩ := hinv
  subst hshape
  have htr : (db.insertCompensationRow row).trace
      = db.trace ++ [.compensation row.id row.employee_id] := rfl
  refine ⟨⟨?_, ?_, ?_⟩, ?_⟩
  · rw [htr]
    exact orderedTrace_append hord trivial
  · intro jid hj
    have hj' : jid ∈ db.jobIds := by
      simpa [DB.insertCompensationRow, DB.jobIds] using hj
    rw [htr]
    exact List.mem_append_left _ (hjobs jid hj')
  · intro b hb
    have hb' : b ∈ db.businessUnitIds := by
      simpa [DB.insertCompensationRow, DB.businessUnitIds] using hb
    obtain ⟨d2, hmem⟩ := hbus b hb'
    exact ⟨d2, by rw [htr]; exact List.mem_append_left _ hmem⟩
  · intro a ha
    rw [htr]
    exact List.mem_append_left _ ha

theorem dbInv_add_business_unit_to_db (bu : BusinessUnit) (s s1 : WState)
    (hinv : dbInv s.db) (h : add_business_unit_to_db bu s = .ok s1) :
    dbInv s1.db := by
  rw [add_business_unit_to_db] at h
  cases hjob : Database.add_job s.db bu.director with
  | error msg => rw [hjob] at h; exact absurd h (by simp)
  | ok db1 =>
    simp only [hjob] at h
    cases hbu : Database.add_business_unit db1 bu.id bu.name bu.description
        bu.director.id with
    | error msg => rw [hbu] at h; exact absurd h (by simp)
    | ok db2 =>
      simp only [hbu, RunResult.ok.injEq] at h
      obtain ⟨hinv1, _, hdir⟩ := dbInv_add_job s.db bu.director db1 hinv hjob
      obtain ⟨hinv2, _⟩ := dbInv_add_business_unit db1 bu.id bu.name bu.description
        bu.director.id db2 hinv1 hdir hbu
      rw [← h]
      exact hinv2

theorem dbInv_addSpecJobs : ∀ (js : List JobsSpec) (db db1 : DB), dbInv db →
    addSpecJobs db js = .ok db1 →
    dbInv db1 ∧ (∀ a ∈ db.trace, a ∈ db1.trace) := by
  intro js
  induction js with
  | nil =>
    intro db db1 hinv h
    rw [addSpecJobs] at h
    injection h with h
    subst h
    exact ⟨hinv, fun a ha => ha⟩
  | cons j rest ih =>
    intro db db1 hinv h
    rw [addSpecJobs] at h
    cases hj : Database.add_job db j.job with
    | error msg => rw [hj] at h; exact absurd h (by simp)
    | ok dbx =>
      rw [hj] at h
      obtain ⟨hinvx, hmonox, _⟩ := dbInv_add_job db j.job dbx hinv hj
      obtain ⟨hinv1, hmono1⟩ := ih dbx db1 hinvx h
      exact ⟨hinv1, fun a ha => hmono1 a (hmonox a ha)⟩

theorem dbInv_add_department_to_db (department : Department) (buid : Nat)
    (s s1 : WState) (hinv : dbInv s.db)
    (h : add_department_to_db department buid s = .ok s1) : dbInv s1.db := by
  rw [add_department_to_db] at h
  cases hmgr : Database.add_job s.db department.manager with
  | error msg => rw [hmgr] at h; exact absurd h (by simp)
  | ok db1 =>
    simp only [hmgr] at h
    cases hjs : addSpecJobs db1 department.jobs with
    | error msg => rw [hjs] at h; exact absurd h (by simp)
    | ok db2 =>
      simp only [hjs] at h
      cases hdep : Database.add_department db2 department.id department.name
          department.description department.manager.id buid with
      | error msg => rw [hdep] at h; exact absurd h (by simp)
      | ok db3 =>
        simp only [hdep, RunResult.ok.injEq] at h
        obtain ⟨hinv1, _, hmgrmem⟩ := dbInv_add_job s.db department.manager db1 hinv hmgr
        obtain ⟨hinv2, hmono2⟩ := dbInv_addSpecJobs department.jobs db1 db2 hinv1 hjs
        obtain ⟨hinv3, _⟩ := dbInv_add_department db2 department.id department.name
          department.description department.manager.id buid db3 hinv2
          (hmono2 _ hmgrmem) hdep
        rw [← h]
        exact hinv3

theorem dbInv_add_employee_to_db (env : WorkflowEnv) (e : Employee)
    (c : Compensation) (s s1 : WState) (hinv : dbInv s.db)
    (h : add_employee_to_db env e c s = .ok s1) : dbInv s1.db := by
  rw [add_employee_to_db] at h
  cases hemp : Database.add_employee env.pools env.fuel s.db e s.ids s.faker with
  | raise msg => rw [hemp] at h; exact absurd h (by simp)
  | hang => rw [hemp] at h; exact absurd h (by simp)
  | ok val =>
    obtain ⟨db1, e1, ids1, f1⟩ := val
    simp only [hemp] at h
    cases hcomp : Database.add_compensation env.fuel db1 c e1.id ids1 with
    | raise msg => rw [hcomp] at h; exact absurd h (by simp)
    | hang => rw [hcomp] at h; exact absurd h (by simp)
    | ok val2 =>
      obtain ⟨db2, c2, ids2⟩ := val2
      simp only [hcomp, RunResult.ok.injEq] at h
      obtain ⟨hinv1, _⟩ := dbInv_add_employee_w env.pools env.fuel s.db e s.ids
        s.faker db1 e1 ids1 f1 hinv hemp
      obtain ⟨hinv2, _⟩ := dbInv_add_compensation_w env.fuel db1 c e1.id ids1
        db2 c2 ids2 hinv1 hcomp
      rw [← h]
      exact hinv2

theorem dbInv_generate_employee (env : WorkflowEnv) (job : Job) (bd : PDate)
    (g : Gender) (eth : Ethnicity) (dep bu : Option Nat) (s s1 : WState)
    (hinv : dbInv s.db)
    (h : generate_employee env job bd g eth dep bu s = .ok s1) : dbInv s1.db := by
  rw [generate_employee] at h
  simp only [IdStream.next, Employee.construct] at h
  cases hdump : Employee.dump env.pools
      ⟨s.ids.stream s.ids.pos, job.id, dep, bu, bd, g, eth, none, none⟩ s.faker with
  | error msg => rw [hdump] at h; exact absurd h (by simp)
  | ok val =>
    obtain ⟨edump, f1⟩ := val
    simp only [hdump] at h
    cases hedu : env.education_result edump job with
    | error msg => rw [hedu] at h; exact absurd h (by simp)
    | ok education_fields =>
      simp only [hedu] at h
      cases hdump2 : Employee.dump env.pools
          ⟨s.ids.stream s.ids.pos, job.id, dep, bu, bd, g, eth,
            some education_fields.education_level,
            some education_fields.education_field⟩ f1 with
      | error msg => rw [hdump2] at h; exact absurd h (by simp)
      | ok val2 =>
        obtain ⟨edump1, f2⟩ := val2
        simp only [hdump2] at h
        cases hcomp : env.compensation_result edump1 job with
        | error msg => rw [hcomp] at h; exact absurd h (by simp)
        | ok compensation =>
          simp only [hcomp] at h
          exact dbInv_add_employee_to_db env
            ⟨s.ids.stream s.ids.pos, job.id, dep, bu, bd, g, eth,
              some education_fields.education_level,
              some education_fields.education_field⟩
            compensation
            { db := s.db, rng := s.rng, faker := f2,
              ids := ⟨s.ids.stream, s.ids.pos + 1⟩ }
            s1 hinv h

theorem dbInv_generateBatch (env : WorkflowEnv) (ratios : Ratios) (job : Job)
    (did : Nat) : ∀ (batch : List Nat) (s s1 : WState), dbInv s.db →
    generateBatch env ratios job did batch s = .ok s1 → dbInv s1.db := by
  intro batch
  induction batch with
  | nil =>
    intro s s1 hinv h
    rw [generateBatch] at h
    injection h with h
    rw [← h]
    exact hinv
  | cons x rest ih =>
    intro s s1 hinv h
    rw [generateBatch] at h
    cases hsd : sampleDemographics ratios s.rng with
    | error msg => rw [hsd] at h; exact absurd h (by simp)
    | ok val =>
      obtain ⟨⟨bd, g, eth⟩, r1⟩ := val
      simp only [hsd] at h
      cases hge : generate_employee env job bd g eth (some did) none
          { s with rng := r1 } with
      | raise msg => rw [hge] at h; exact absurd h (by simp)
      | hang => rw [hge] at h; exact absurd h (by simp)
      | ok sx =>
        simp only [hge] at h
        exact ih sx s1 (dbInv_generate_employee env job bd g eth (some did) none
          { s with rng := r1 } sx hinv hge) h

theorem dbInv_generateBatches (env : WorkflowEnv) (ratios : Ratios) (job : Job)
    (did : Nat) : ∀ (batches : List (List Nat)) (s s1 : WState), dbInv s.db →
    generateBatches env ratios job did batches s = .ok s1 → dbInv s1.db := by
  intro batches
  induction batches with
  | nil =>
    intro s s1 hinv h
    rw [generateBatches] at h
    injection h with h
    rw [← h]
    exact hinv
  | cons batch rest ih =>
    intro s s1 hinv h
    rw [generateBatches] at h
    cases hb : generateBatch env ratios job did batch s with
    | raise msg => rw [hb] at h; exact absurd h (by simp)
    | hang => rw [hb] at h; exact absurd h (by simp)
    | ok sx =>
      simp only [hb] at h
      exact ih sx s1 (dbInv_generateBatch env ratios job did batch s sx hinv hb) h

theorem dbInv_generateJobSpecs (env : WorkflowEnv) (ratios : Ratios) (did : Nat) :
    ∀ (specs : List JobsSpec) (s s1 : WState), dbInv s.db →
    generateJobSpecs env ratios did specs s = .ok s1 → dbInv s1.db := by
  intro specs
  induction specs with
  | nil =>
    intro s s1 hinv h
    rw [generateJobSpecs] at h
    injection h with h
    rw [← h]
    exact hinv
  | cons js rest ih =>
    intro s s1 hinv h
    rw [generateJobSpecs] at h
    cases hbi : batch_iterator (List.range js.headcount) 5 with
    | error msg => rw [hbi] at h; exact absurd h (by simp)
    | ok batches =>
      simp only [hbi] at h
      cases hgb : generateBatches env ratios js.job did batches s with
      | raise msg => rw [hgb] at h; exact absurd h (by simp)
      | hang => rw [hgb] at h; exact absurd h (by simp)
      | ok sx =>
        simp only [hgb] at h
        exact ih sx s1 (dbInv_generateBatches env ratios js.job did batches s sx
          hinv hgb) h

theorem dbInv_generate_department (env : WorkflowEnv) (ratios : Ratios)
    (department : Department) (s s1 : WState) (hinv : dbInv s.db)
    (h : generate_department env ratios department s = .ok s1) : dbInv s1.db := by
  rw [generate_department.eq_def] at h
  cases hsd : sampleDemographics ratios s.rng with
  | error msg => rw [hsd] at h; exact absurd h (by simp)
  | ok val =>
    obtain ⟨⟨bd, g, eth⟩, r1⟩ := val
    simp only [hsd] at h
    cases hge : generate_employee env department.manager bd g eth
        (some department.id) none { s with rng := r1 } with
    | raise msg => rw [hge] at h; exact absurd h (by simp)
    | hang => rw [hge] at h; exact absurd h (by simp)
    | ok sx =>
      simp only [hge] at h
      exact dbInv_generateJobSpecs env ratios department.id department.jobs sx s1
        (dbInv_generate_employee env department.manager bd g eth
          (some department.id) none { s with rng := r1 } sx hinv hge) h

theorem dbInv_workDepartments (env : WorkflowEnv) (ratios : Ratios) (buid : Nat) :
    ∀ (departments : List Department) (s s1 : WState), dbInv s.db →
    workDepartments env ratios buid departments s = .ok s1 → dbInv s1.db := by
  intro departments
  induction departments with
  | nil =>
    intro s s1 hinv h
    rw [workDepartments] at h
    injection h with h
    rw [← h]
    exact hinv
  | cons department rest ih =>
    intro s s1 hinv h
    rw [workDepartments] at h
    cases hd : add_department_to_db department buid s with
    | raise msg => rw [hd] at h; exact absurd h (by simp)
    | hang => rw [hd] at h; exact absurd h (by simp)
    | ok sx =>
      simp only [hd] at h
      cases hg : generate_department env ratios department sx with
      | raise msg => rw [hg] at h; exact absurd h (by simp)
      | hang => rw [hg] at h; exact absurd h (by simp)
      | ok sy =>
        simp only [hg] at h
        exact ih sy s1 (dbInv_generate_department env ratios department sx sy
          (dbInv_add_department_to_db department buid s sx hinv hd) hg) h

theorem dbInv_workBusinessUnits (env : WorkflowEnv) (ratios : Ratios) :
    ∀ (bus : List BusinessUnit) (s s1 : WState), dbInv s.db →
    workBusinessUnits env ratios bus s = .ok s1 → dbInv s1.db := by
  intro bus
  induction bus with
  | nil =>
    intro s s1 hinv h
    rw [workBusinessUnits] at h
    injection h with h
    rw [← h]
    exact hinv
  | cons bu rest ih =>
    intro s s1 hinv h
    rw [workBusinessUnits] at h
    cases hb : add_business_unit_to_db bu s with
    | raise msg => rw [hb] at h; exact absurd h (by simp)
    | hang => rw [hb] at h; exact absurd h (by simp)
    | ok sx =>
      simp only [hb] at h
      cases hsd : sampleDemographics ratios sx.rng with
      | error msg => rw [hsd] at h; exact absurd h (by simp)
      | ok val =>
        obtain ⟨⟨bd, g, eth⟩, r1⟩ := val
        simp only [hsd] at h
        cases hge : generate_employee env bu.director bd g eth none (some bu.id)
            { sx with rng := r1 } with
        | raise msg => rw [hge] at h; exact absurd h (by simp)
        | hang => rw [hge] at h; exact absurd h (by simp)
        | ok sy =>
          simp only [hge] at h
          cases hwd : workDepartments env ratios bu.id bu.departments sy with
          | raise msg => rw [hwd] at h; exact absurd h (by simp)
          | hang => rw [hwd] at h; exact absurd h (by simp)
          | ok sz =>
            simp only [hwd] at h
            have hinvx := dbInv_add_business_unit_to_db bu s sx hinv hb
            have hinvy := dbInv_generate_employee env bu.director bd g eth none
              (some bu.id) { sx with rng := r1 } sy hinvx hge
            have hinvz := dbInv_workDepartments env ratios bu.id bu.departments sy
              sz hinvy hwd
            exact ih sz s1 hinvz h

/-- C8: in every workflow run over a freshly created (empty) database that
completes successfully, the insert trace is ordered: a department row is
never inserted before its parent business unit's row, and a job row is
inserted before any row that references it (a business unit's
director_job_id, a department's manager_job_id, or an employee's job_id). -/
theorem dataset_workflow_insert_ordered (env : WorkflowEnv) (prompt : String)
    (s : WState) (out : String) (s1 : WState) (hdb : s.db = emptyDb)
    (h : dataset_workflow env prompt s = .ok (out, s1)) :
    orderedTrace s1.db.trace := by
  rw [dataset_workflow] at h
  cases hspec : env.spec_result prompt with
  | error msg => rw [hspec] at h; exact absurd h (by simp)
  | ok company =>
    simp only [hspec] at h
    cases hrat : env.ratios_result company with
    | error msg => rw [hrat] at h; exact absurd h (by simp)
    | ok ratios =>
      simp only [hrat, create_database] at h
      cases hbus : workBusinessUnits env ratios company.business_units s with
      | raise msg => rw [hbus] at h; exact absurd h (by simp)
      | hang => rw [hbus] at h; exact absurd h (by simp)
      | ok s2 =>
        simp only [hbus, RunResult.ok.injEq, Prod.mk.injEq] at h
        obtain ⟨_, hs2⟩ := h
        have hinv0 : dbInv s.db := by
          rw [hdb]
          exact dbInv_emptyDb
        have hinv := dbInv_workBusinessUnits env ratios company.business_units s s2
          hinv0 hbus
        rw [← hs2]
        exact hinv.1

/-- C8 witness: the ordering theorem applied to a concrete successful run
over a fresh database. -/
theorem dataset_workflow_insert_ordered_witness :
    (sC3.db = emptyDb ∧
      dataset_workflow envC3 "a boutique firm" sC3
        = .ok ("Dataset generation completed. Database: None", sC3)) ∧
    orderedTrace sC3.db.trace :=
  ⟨⟨rfl, by rfl⟩,
    dataset_workflow_insert_ordered envC3 "a boutique firm" sC3
      "Dataset generation completed. Database: None" sC3 rfl (by rfl)⟩

end HRGen
